import Mathlib

/-!
Verification development for the `gw_eccentricity` measurement engine
(`gw_eccentricity/eccDefinition.py`).

The embedding models the measurement pipeline of `eccDefinition` from the
point where the two extrema interpolants have been constructed (source
lines 436-537 of `measure_ecc`, plus the helper methods it calls).  Times,
phases and interpolant values are modelled as rationals (the spline fits
of `scipy.interpolate.InterpolatedUnivariateSpline` over rational data
produce rational coefficients in exact arithmetic); the transcendental
eccentricity conversion `et_from_ew22_0pn` and the mean-anomaly factor
`2*pi` live in `ℝ`.  The scipy spline-fitting routines themselves are
external library code and appear as abstract function fields of the
state; every control-flow decision, filter and check of the source is
modelled concretely.

Fallible Python code (every `raise`) is modelled with `Except EccErr`.
-/

namespace GwEcc

/-- Distinct fatal errors raised by the source, one constructor per
distinct `raise` site relevant to the modelled pipeline. -/
inductive EccErr
  /-- Message "Exactly one of tref_in and fref_in should be specified." (line 444) -/
  | exactlyOne
  /-- Message "tref_in ... is later than tmax ..." (line 480) -/
  | laterThanTmax
  /-- Message "tref_in ... is earlier than tmin ..." (line 486) -/
  | earlierThanTmin
  /-- Message "tref_out is empty ..." (line 492) -/
  | emptyTrefOut
  /-- Message "Length of fref_out is different from length of tref_out" (line 474) -/
  | frefTrefLengthMismatch
  /-- Message "Reference time must be within two pericenters." (line 512) -/
  | withinTwoPericenters
  /-- Source `check_time_limits`: "Found times later than or equal to tmax" (line 662) -/
  | timesLaterThanTmax
  /-- Source `check_time_limits`: "Found times earlier than tmin" (line 667) -/
  | timesEarlierThanTmin
  /-- Message "Omega22 average at pericenters are not strictly monotonically increaing" (line 895) -/
  | monotonicityPericenters
  /-- Message "Omega22 average at apocenters are not strictly monotonically increasing" (line 898) -/
  | monotonicityApocenters
  /-- IndexError from `np.where(self.t_pericenters <= t)[0][-1]` on empty match (line 644) -/
  | noPericenterBefore
  /-- IndexError from `self.t_pericenters[idx + 1]` out of bounds (line 646) -/
  | noNextPericenter
  /-- Message "fref_in is earlier than minimum available frequency" (line 1092) -/
  | frefEarlierThanMin
  /-- Message "fref_in is later than maximum available frequency" (line 1096) -/
  | frefLaterThanMax
  /-- Message "fref_out is empty ..." (line 1101) -/
  | emptyFrefOut
  /-- AttributeError: zero-eccentricity data absent when `omega22_zeroecc` is used -/
  | attributeError
  /-- failure inside an external scipy spline fit or an `ext=2` out-of-range evaluation -/
  | splineError
  /-- unrecognized key in a configuration dictionary (fatal, from `check_kwargs_and_set_defaults`) -/
  | unrecognizedConfigKey
deriving DecidableEq, Repr

/-- The three values of the `omega22_averaging_method` option
(`get_available_omega22_averaging_methods`, lines 924-931). -/
inductive AvgMethod
  | mean_of_extrema_interpolants
  | mean_motion
  | omega22_zeroecc
deriving DecidableEq, Repr

/-- State of an `eccDefinition` instance at source line 436: the signal
arrays, the extrema locations returned by `interp_extrema`, and the
interpolants.  The four trailing fields are the external scipy spline
routines, abstract here: `omega22_pericenters_interp` and
`omega22_apocenters_interp` are the fitted extrema splines (total inside
the reference window, which is how the source uses them after its window
checks), `omega22_zeroecc_interp` is the spline through the
zero-eccentricity frequency (`none` when `dataDict` has no zero-ecc
data), `spline_fit xs ys q` fits an `ext=2` spline through `(xs, ys)` and
evaluates it at `q`, `t_of_fref_fit fs ts f` is the frequency-to-time
spline of `compute_tref_in_and_fref_out_from_fref_in`, and
`ecc_deriv_fit` is the derivative of the eccentricity spline of
`derivative_of_eccentricity`. -/
structure EccState where
  t : List ℚ
  phase22 : List ℚ
  pericenters_location : List ℕ
  apocenters_location : List ℕ
  omega22_pericenters_interp : ℚ → ℚ
  omega22_apocenters_interp : ℚ → ℚ
  omega22_zeroecc_interp : Option (ℚ → Except EccErr ℚ)
  spline_fit : List ℚ → List ℚ → ℚ → Except EccErr ℚ
  t_of_fref_fit : List ℝ → List ℚ → ℝ → Except EccErr ℚ
  ecc_deriv_fit : List ℚ → List ℝ → Except EccErr (ℚ → ℝ)

/-- Source `self.t_pericenters = self.t[self.pericenters_location]` (line 436). -/
def t_pericenters (s : EccState) : List ℚ :=
  s.pericenters_location.map (fun i => s.t.getD i 0)

/-- Source `self.t_apocenters = self.t[self.apocenters_location]` (line 437). -/
def t_apocenters (s : EccState) : List ℚ :=
  s.apocenters_location.map (fun i => s.t.getD i 0)

/-- Source `self.tmax = min(self.t_pericenters[-1], self.t_apocenters[-1])` (line 438). -/
def tmax (s : EccState) : ℚ :=
  min ((t_pericenters s).getLastD 0) ((t_apocenters s).getLastD 0)

/-- Source `self.tmin = max(self.t_pericenters[0], self.t_apocenters[0])` (line 439). -/
def tmin (s : EccState) : ℚ :=
  max ((t_pericenters s).headD 0) ((t_apocenters s).headD 0)

/-- Source `check_time_limits` (lines 655-671): error when any time is `>= tmax`
or any time is `< tmin`, in that order. -/
def check_time_limits (s : EccState) (ts : List ℚ) : Except EccErr Unit :=
  if ts.any (fun τ => decide (tmax s ≤ τ)) then .error .timesLaterThanTmax
  else if ts.any (fun τ => decide (τ < tmin s)) then .error .timesEarlierThanTmin
  else .ok ()

/-- Four-quadrant arctangent with the argument convention of
`np.arctan2(y, x)`. -/
noncomputable def arctan2 (y x : ℝ) : ℝ :=
  if 0 < x then Real.arctan (y / x)
  else if x < 0 then
    (if 0 ≤ y then Real.arctan (y / x) + Real.pi
     else Real.arctan (y / x) - Real.pi)
  else if 0 < y then Real.pi / 2
  else if y < 0 then -(Real.pi / 2)
  else 0

/-- Source `et_from_ew22_0pn` (lines 539-555): temporal eccentricity at
Newtonian order from the frequency eccentricity `ew22`. -/
noncomputable def et_from_ew22_0pn (ew22 : ℝ) : ℝ :=
  let psi := arctan2 (1 - ew22 * ew22) (2 * ew22)
  Real.cos (psi / 3) - Real.sqrt 3 * Real.sin (psi / 3)

/-- The pointwise eccentricity formula of `compute_eccentricity`
(lines 580-587): evaluate both extrema interpolants, form `ew22`, and
convert with `et_from_ew22_0pn`. -/
noncomputable def compute_eccentricity_val (s : EccState) (τ : ℚ) : ℝ :=
  let op : ℝ := (s.omega22_pericenters_interp τ : ℚ)
  let oa : ℝ := (s.omega22_apocenters_interp τ : ℚ)
  let ew22 := (Real.sqrt op - Real.sqrt oa) / (Real.sqrt op + Real.sqrt oa)
  et_from_ew22_0pn ew22

/-- Source `compute_eccentricity` (lines 557-587): first `check_time_limits`,
then the eccentricity formula, elementwise.  Scalar input corresponds to
a one-element list (numpy broadcasting). -/
noncomputable def compute_eccentricity (s : EccState) (ts : List ℚ) :
    Except EccErr (List ℝ) :=
  match check_time_limits s ts with
  | .error e => .error e
  | .ok _ => .ok (ts.map (compute_eccentricity_val s))

/-- The inner `mean_ano` of `compute_mean_ano` (lines 642-651): locate
the last pericenter at or before `τ` (IndexError when there is none),
take the next one (IndexError when there is none), and interpolate the
phase linearly from `0` to `2*pi`. -/
noncomputable def mean_ano_scalar (s : EccState) (τ : ℚ) : Except EccErr ℝ :=
  match ((List.range (t_pericenters s).length).filter
      (fun i => decide ((t_pericenters s).getD i 0 ≤ τ))).getLast? with
  | none => .error .noPericenterBefore
  | some idx =>
    if idx + 1 < (t_pericenters s).length then
      .ok (2 * Real.pi *
        (((τ - (t_pericenters s).getD idx 0)
          / ((t_pericenters s).getD (idx + 1) 0 - (t_pericenters s).getD idx 0) : ℚ) : ℝ))
    else .error .noNextPericenter

/-- Source `compute_mean_ano` (lines 617-653): `check_time_limits`, then the
vectorized `mean_ano`, elementwise. -/
noncomputable def compute_mean_ano (s : EccState) (ts : List ℚ) :
    Except EccErr (List ℝ) :=
  match check_time_limits s ts with
  | .error e => .error e
  | .ok _ => ts.mapM (mean_ano_scalar s)

/-- Source `self.t_for_checks` (lines 467-469): the sample times inside the
reference window. -/
def t_for_checks (s : EccState) : List ℚ :=
  s.t.filter (fun τ => decide (tmin s ≤ τ ∧ τ < tmax s))

/-- Source `derivative_of_eccentricity` (lines 589-615): `check_time_limits`,
then build `ecc_for_checks` via `compute_eccentricity(t_for_checks)`,
fit the eccentricity spline, and evaluate its derivative. -/
noncomputable def derivative_of_eccentricity (s : EccState) (ts : List ℚ) :
    Except EccErr (List ℝ) :=
  match check_time_limits s ts with
  | .error e => .error e
  | .ok _ =>
    match compute_eccentricity s (t_for_checks s) with
    | .error e => .error e
    | .ok eccs =>
      match s.ecc_deriv_fit (t_for_checks s) eccs with
      | .error e => .error e
      | .ok g => .ok (ts.map g)

/-! ### Mean-motion averaging (`get_t_average_for_mean_motion`,
`compute_mean_motion_at_extrema`, lines 832-908) -/

/-- Midpoints between consecutive entries, `(x[1:] + x[:-1]) / 2`. -/
def midpoints (xs : List ℚ) : List ℚ :=
  List.zipWith (fun a b => (a + b) / 2) xs xs.tail

/-- Stable insertion used by `argsort`. -/
def argInsert (xs : List ℚ) (i : ℕ) : List ℕ → List ℕ
  | [] => [i]
  | j :: r =>
    if xs.getD i 0 < xs.getD j 0 then i :: j :: r else j :: argInsert xs i r

/-- Source `np.argsort`: the permutation of `[0, …, n)` that sorts `xs`. -/
def argsort (xs : List ℚ) : List ℕ :=
  (List.range xs.length).foldr (argInsert xs) []

/-- Source `get_t_average_for_mean_motion` (lines 832-859): midpoint times of
apocenter and pericenter intervals (`np.append(apocenters, pericenters)`
order), sorted, together with the sorting permutation. -/
def get_t_average_for_mean_motion (s : EccState) : List ℚ × List ℕ :=
  let t_average := midpoints (t_apocenters s) ++ midpoints (t_pericenters s)
  let sorted_idx := argsort t_average
  (sorted_idx.map (t_average.getD · 0), sorted_idx)

/-- Source `np.diff(l)` has an entry `≤ 0`, i.e. the list has a non-increasing
adjacent step. -/
def hasNonIncreasingStep (l : List ℚ) : Bool :=
  (List.zipWith (fun a b => b - a) l l.tail).any (fun d => decide (d ≤ 0))

/-- Orbit-averaged frequencies at pericenter intervals (lines 885-891):
entry `n` is the phase difference between pericenters `n` and `n+1`
divided by the time difference. -/
def omega22_average_pericenters (s : EccState) : List ℚ :=
  (List.range (s.pericenters_location.length - 1)).map (fun n =>
    (s.phase22.getD (s.pericenters_location.getD (n + 1) 0) 0
      - s.phase22.getD (s.pericenters_location.getD n 0) 0)
    / (s.t.getD (s.pericenters_location.getD (n + 1) 0) 0
      - s.t.getD (s.pericenters_location.getD n 0) 0))

/-- Orbit-averaged frequencies at apocenter intervals (lines 892-893). -/
def omega22_average_apocenters (s : EccState) : List ℚ :=
  (List.range (s.apocenters_location.length - 1)).map (fun n =>
    (s.phase22.getD (s.apocenters_location.getD (n + 1) 0) 0
      - s.phase22.getD (s.apocenters_location.getD n 0) 0)
    / (s.t.getD (s.apocenters_location.getD (n + 1) 0) 0
      - s.t.getD (s.apocenters_location.getD n 0) 0))

/-- Source `compute_mean_motion_at_extrema` (lines 861-908): compute the two
orbit-average sequences, raise if either has a non-increasing step
(pericenters checked first), otherwise merge in `np.append(apocenters,
pericenters)` order, reorder by the `argsort` permutation of the midpoint
times, and evaluate the `ext=2` spline through them. -/
def compute_mean_motion_at_extrema (s : EccState) (τ : ℚ) : Except EccErr ℚ :=
  if hasNonIncreasingStep (omega22_average_pericenters s) then
    .error .monotonicityPericenters
  else if hasNonIncreasingStep (omega22_average_apocenters s) then
    .error .monotonicityApocenters
  else
    s.spline_fit (get_t_average_for_mean_motion s).1
      ((get_t_average_for_mean_motion s).2.map
        ((omega22_average_apocenters s ++ omega22_average_pericenters s).getD · 0))
      τ

/-- Source `compute_omega22_average_between_extrema` (lines 910-917). -/
def compute_omega22_average_between_extrema (s : EccState) (τ : ℚ) : ℚ :=
  (s.omega22_pericenters_interp τ + s.omega22_apocenters_interp τ) / 2

/-- Dispatch of `self.available_averaging_methods[method](t)`
(lines 924-931): `compute_omega22_average_between_extrema`,
`compute_mean_motion_at_extrema`, or `compute_omega22_zeroecc` (which is
an AttributeError when no zero-eccentricity data was supplied). -/
def avgMethodEval (s : EccState) (m : AvgMethod) (τ : ℚ) : Except EccErr ℚ :=
  match m with
  | .mean_of_extrema_interpolants => .ok (compute_omega22_average_between_extrema s τ)
  | .mean_motion => compute_mean_motion_at_extrema s τ
  | .omega22_zeroecc =>
    match s.omega22_zeroecc_interp with
    | none => .error .attributeError
    | some f => f τ

/-- Smallest element of a list (`np.min`); `0` as the (never exercised)
default for the empty list. -/
def minQ : List ℚ → ℚ
  | [] => 0
  | x :: xs => xs.foldl min x

/-- Largest element of a list (`np.max`). -/
def maxQ : List ℚ → ℚ
  | [] => 0
  | x :: xs => xs.foldl max x

/-- The results of `get_fref_bounds` (lines 1013-1069): the allowed
reference-frequency window and the time window it was evaluated on. -/
structure FrefBounds where
  fref_min : ℝ
  fref_max : ℝ
  tmin_for_fref : ℚ
  tmax_for_fref : ℚ

/-- The averaging window `(tmin_for_fref, tmax_for_fref)` of
`get_fref_bounds` (lines 1054-1063): for `mean_motion` it is clipped to
the midpoint-time range, otherwise it is `(tmin, tmax)`. -/
def fref_bounds_window (s : EccState) (m : AvgMethod) : ℚ × ℚ :=
  match m with
  | .mean_motion =>
    (max (minQ (get_t_average_for_mean_motion s).1) (tmin s),
     min (maxQ (get_t_average_for_mean_motion s).1) (tmax s))
  | _ => (tmin s, tmax s)

/-- Source `get_fref_bounds` (lines 1013-1069): the frequency bounds are the
selected average evaluated at the averaging-window ends, divided by
`2*pi`. -/
noncomputable def get_fref_bounds (s : EccState) (m : AvgMethod) :
    Except EccErr FrefBounds :=
  match avgMethodEval s m (fref_bounds_window s m).1 with
  | .error e => .error e
  | .ok v1 =>
    match avgMethodEval s m (fref_bounds_window s m).2 with
    | .error e => .error e
    | .ok v2 => .ok ⟨(v1 : ℝ) / 2 / Real.pi, (v2 : ℝ) / 2 / Real.pi,
        (fref_bounds_window s m).1, (fref_bounds_window s m).2⟩

/-- The frequency filter `fref_in[fref_in >= fref_min & fref_in <
fref_max]` of `get_fref_out` (lines 1088-1090). -/
noncomputable def fref_out_of (fref_in : List ℝ) (fref_min fref_max : ℝ) : List ℝ :=
  fref_in.filter (fun f => decide (fref_min ≤ f ∧ f < fref_max))

/-- Source `get_fref_out` (lines 1071-1104): keep frequencies in
`[fref_min, fref_max)`; on an empty result raise the "too low", "too
high" or "otherwise empty" error, in that order. -/
noncomputable def get_fref_out (fref_in : List ℝ) (fref_min fref_max : ℝ) :
    Except EccErr (List ℝ) :=
  if (fref_out_of fref_in fref_min fref_max).isEmpty then
    (if fref_in.headD 0 < fref_min then .error .frefEarlierThanMin
     else if fref_max < fref_in.getLastD 0 then .error .frefLaterThanMax
     else .error .emptyFrefOut)
  else .ok (fref_out_of fref_in fref_min fref_max)

/-- Source `self.t_for_omega22_average` (lines 988-990): the sample times
inside the averaging window. -/
def t_for_avg_of (s : EccState) (b : FrefBounds) : List ℚ :=
  s.t.filter (fun τ => decide (b.tmin_for_fref ≤ τ ∧ τ < b.tmax_for_fref))

/-- Source `compute_tref_in_and_fref_out_from_fref_in` (lines 933-1011): filter
the input frequencies with `get_fref_out`, evaluate the averaged
frequency on the sample times inside the averaging window, build the
time-of-frequency spline over `omega22_average / (2*pi)` and evaluate it
on `fref_out`. -/
noncomputable def compute_tref_in_and_fref_out (s : EccState) (m : AvgMethod)
    (b : FrefBounds) (fref_in : List ℝ) : Except EccErr (List ℚ × List ℝ) :=
  match get_fref_out fref_in b.fref_min b.fref_max with
  | .error e => .error e
  | .ok fref_out =>
    match (t_for_avg_of s b).mapM (avgMethodEval s m) with
    | .error e => .error e
    | .ok omega22_average =>
      match fref_out.mapM
          (s.t_of_fref_fit (omega22_average.map (fun w : ℚ => (w : ℝ) / (2 * Real.pi)))
            (t_for_avg_of s b)) with
      | .error e => .error e
      | .ok tref_in => .ok (tref_in, fref_out)

/-! ### `measure_ecc` (lines 436-537) -/

/-- Scalar-or-array reference-time input (`np.ndim` is 0 or 1). -/
inductive TrefIn
  | scalar (x : ℚ)
  | array (xs : List ℚ)

/-- The 1-d array `np.atleast_1d` makes of the input. -/
def TrefIn.toList : TrefIn → List ℚ
  | .scalar x => [x]
  | .array xs => xs

/-- Scalar-or-array reference-frequency input. -/
inductive FrefIn
  | scalar (x : ℝ)
  | array (xs : List ℝ)

/-- The 1-d array `np.atleast_1d` makes of the input. -/
def FrefIn.toList : FrefIn → List ℝ
  | .scalar x => [x]
  | .array xs => xs

/-- Return value of `measure_ecc`: the resolved reference array (times
when `tref_in` was given, frequencies when `fref_in` was given), the
eccentricities and the mean anomalies, scalar or array following the
input shape. -/
inductive MeasureOut
  | tScalar (tref : ℚ) (ecc : ℝ) (meanAno : ℝ)
  | tArray (tref : List ℚ) (ecc : List ℝ) (meanAno : List ℝ)
  | fScalar (fref : ℝ) (ecc : ℝ) (meanAno : ℝ)
  | fArray (fref : List ℝ) (ecc : List ℝ) (meanAno : List ℝ)

/-- Resolution of the `tref_in`/`fref_in` alternative (lines 443-456):
exactly one must be given; a frequency input is converted to times. -/
noncomputable def resolveInput (s : EccState) (m : AvgMethod) (b : FrefBounds)
    (tref_in : Option (List ℚ)) (fref_in : Option (List ℝ)) :
    Except EccErr (List ℚ × Option (List ℝ)) :=
  match tref_in, fref_in with
  | some tl, none => .ok (tl, none)
  | none, some fl =>
    (match compute_tref_in_and_fref_out s m b fl with
     | .error e => .error e
     | .ok p => .ok (p.1, some p.2))
  | _, _ => .error .exactlyOne

/-- The `len(fref_out) != len(tref_out)` sanity check (lines 473-477). -/
def frefLenMismatch : Option (List ℝ) → List ℚ → Bool
  | some fo, r => fo.length != r.length
  | none, _ => false

/-- Source `self.tref_out = self.tref_in[tref_in >= tmin & tref_in < tmax]`
(lines 463-465). -/
def tref_out_of (s : EccState) (tl : List ℚ) : List ℚ :=
  tl.filter (fun τ => decide (tmin s ≤ τ ∧ τ < tmax s))

/-- Lines 457-537 of `measure_ecc`, after the reference input has been
resolved to a time array `tl`: clip to `[tmin, tmax)`, run the sanity
checks in source order, compute eccentricity and mean anomaly, and (when
`debug`) run `check_monotonicity_and_convexity`, whose fallible part is
`derivative_of_eccentricity(t_for_checks)`. -/
noncomputable def afterResolve (s : EccState) (debug : Bool) (tl : List ℚ)
    (fo? : Option (List ℝ)) :
    Except EccErr (List ℚ × List ℝ × List ℝ × Option (List ℝ)) :=
  if frefLenMismatch fo? (tref_out_of s tl) then .error .frefTrefLengthMismatch
  else if (tref_out_of s tl).isEmpty then
    (if tmax s < tl.getLastD 0 then .error .laterThanTmax
     else if tl.headD 0 < tmin s then .error .earlierThanTmin
     else .error .emptyTrefOut)
  else if (tref_out_of s tl).headD 0 < (t_pericenters s).headD 0
      ∨ (t_pericenters s).getLastD 0 ≤ (tref_out_of s tl).getLastD 0 then
    .error .withinTwoPericenters
  else
    match compute_eccentricity s (tref_out_of s tl) with
    | .error e => .error e
    | .ok ecc =>
      match compute_mean_ano s (tref_out_of s tl) with
      | .error e => .error e
      | .ok meanAno =>
        if debug then
          match derivative_of_eccentricity s (t_for_checks s) with
          | .error e => .error e
          | .ok _ => .ok (tref_out_of s tl, ecc, meanAno, fo?)
        else .ok (tref_out_of s tl, ecc, meanAno, fo?)

/-- The array-level pipeline of `measure_ecc` (lines 436-525):
`get_fref_bounds` with the configured averaging method runs first
(line 441), then the exactly-one check and input resolution, then the
window clipping, checks and measurements. -/
noncomputable def measureEccCore (s : EccState) (m : AvgMethod) (debug : Bool)
    (tref_in : Option (List ℚ)) (fref_in : Option (List ℝ)) :
    Except EccErr (List ℚ × List ℝ × List ℝ × Option (List ℝ)) :=
  match get_fref_bounds s m with
  | .error e => .error e
  | .ok b =>
    match resolveInput s m b tref_in fref_in with
    | .error e => .error e
    | .ok p => afterResolve s debug p.1 p.2

/-- Source `measure_ecc` (lines 337-537): run the array pipeline on the
`np.atleast_1d` image of the input and restore the input shape
(lines 527-537): scalar input yields element `[0]` of each output array,
and the returned reference array is `fref_out` when frequencies were
given, `tref_out` otherwise. -/
noncomputable def measureEcc (s : EccState) (m : AvgMethod) (debug : Bool)
    (tref_in : Option TrefIn) (fref_in : Option FrefIn) :
    Except EccErr MeasureOut :=
  match measureEccCore s m debug (tref_in.map TrefIn.toList) (fref_in.map FrefIn.toList) with
  | .error e => .error e
  | .ok out =>
    match fref_in with
    | some (.scalar _) =>
      .ok (.fScalar ((out.2.2.2.getD []).headD 0) (out.2.1.headD 0) (out.2.2.1.headD 0))
    | some (.array _) => .ok (.fArray (out.2.2.2.getD []) out.2.1 out.2.2.1)
    | none =>
      match tref_in with
      | some (.scalar _) =>
        .ok (.tScalar (out.1.headD 0) (out.2.1.headD 0) (out.2.2.1.headD 0))
      | some (.array _) => .ok (.tArray out.1 out.2.1 out.2.2.1)
      | none => .error .exactlyOne

/-! ### Constructor key validation (`eccDefinition.__init__`,
lines 159-229, and `get_recognized_dataDict_keys`, lines 233-241) -/

/-- Source `get_recognized_dataDict_keys` (lines 233-241). -/
def get_recognized_dataDict_keys : List String :=
  ["t", "hlm", "t_zeroecc", "hlm_zeroecc"]

/-- The `warnings.warn` loop of `__init__` (lines 162-165): one warning
per `dataDict` key that is not recognized, in order; construction
proceeds regardless. -/
def dataDict_key_warnings (dataKeys : List String) : List String :=
  dataKeys.filter (fun k => decide (k ∉ get_recognized_dataDict_keys))

/-- Keys of `get_default_spline_kwargs` (lines 243-251). -/
def default_spline_keys : List String :=
  ["w", "bbox", "k", "ext", "check_finite"]

/-- Keys of `get_default_extra_kwargs` (lines 266-277). -/
def default_extra_keys : List String :=
  ["num_orbits_to_exclude_before_merger", "extrema_finding_kwargs", "debug",
   "omega22_averaging_method",
   "treat_mid_points_between_pericenters_as_apocenters", "refine_extrema"]

/-- Modelled from the spec: `check_kwargs_and_set_defaults` lives in
`gw_eccentricity/utils.py`, which is not among the sources; per the spec
each option group is "validated against a fixed set of recognized keys;
unrecognized keys are rejected", and an "unrecognized configuration key"
is a fatal input-validity error.  The model validates the user-supplied
key set against the default key set and returns the merged key set. -/
def check_kwargs_and_set_defaults (userKeys defaultKeys : List String) :
    Except EccErr (List String) :=
  if userKeys.any (fun k => decide (k ∉ defaultKeys)) then
    .error .unrecognizedConfigKey
  else .ok defaultKeys

/-- The key-validation behaviour of `__init__` (lines 159-229): the list
of emitted `dataDict` warnings, paired with the outcome of the two
fatal configuration-key checks (spline kwargs first, then extra
kwargs, mirroring lines 210-217). -/
def eccDefinition_init_keys (dataKeys splineKeys extraKeys : List String) :
    List String × Except EccErr Unit :=
  (dataDict_key_warnings dataKeys,
    match check_kwargs_and_set_defaults splineKeys default_spline_keys with
    | .error e => .error e
    | .ok _ =>
      match check_kwargs_and_set_defaults extraKeys default_extra_keys with
      | .error e => .error e
      | .ok _ => .ok ())

/-! ### Concrete states used by witnesses and counterexamples -/

/-- A well-behaved concrete state: uniform time grid `0, …, 12`,
pericenters at samples `0, 4, 8, 12`, apocenters at `2, 6, 10`, linearly
growing phase, and simple total stand-ins for the external spline
routines.  Reference window: `tmin = 2`, `tmax = 10`. -/
noncomputable def sgood : EccState where
  t := [0, 1, 2, 3, 4, 5, 6, 7, 8, 9, 10, 11, 12]
  phase22 := [0, 1, 4, 9, 16, 25, 36, 49, 64, 81, 100, 121, 144]
  pericenters_location := [0, 4, 8, 12]
  apocenters_location := [2, 6, 10]
  omega22_pericenters_interp := fun _ => 4
  omega22_apocenters_interp := fun _ => 1
  omega22_zeroecc_interp := some (fun _ => .ok 3)
  spline_fit := fun _ _ _ => .ok 2
  t_of_fref_fit := fun _ _ _ => .ok 5
  ecc_deriv_fit := fun _ _ => .ok (fun _ => 0)

/-- Like `sgood` but with a phase profile whose orbit-averaged frequency
at pericenters is not monotonic: the averages over the three pericenter
intervals are `2, 1, 9/2`. -/
noncomputable def sbad : EccState where
  t := [0, 1, 2, 3, 4, 5, 6, 7, 8, 9, 10, 11, 12]
  phase22 := [0, 2, 4, 6, 8, 9, 10, 11, 12, 16, 21, 26, 30]
  pericenters_location := [0, 4, 8, 12]
  apocenters_location := [2, 6, 10]
  omega22_pericenters_interp := fun _ => 4
  omega22_apocenters_interp := fun _ => 1
  omega22_zeroecc_interp := some (fun _ => .ok 3)
  spline_fit := fun _ _ _ => .ok 2
  t_of_fref_fit := fun _ _ _ => .ok 5
  ecc_deriv_fit := fun _ _ => .ok (fun _ => 0)

/-- A state whose pericenters all lie before its apocenters, so that
`tmin = 5 > 2 = tmax`: pericenters at times `0, 2`, apocenters at
`5, 9`. -/
noncomputable def sbadwin : EccState where
  t := [0, 1, 2, 3, 4, 5, 6, 7, 8, 9]
  phase22 := [0, 2, 4, 6, 8, 10, 12, 14, 16, 18]
  pericenters_location := [0, 2]
  apocenters_location := [5, 9]
  omega22_pericenters_interp := fun _ => 4
  omega22_apocenters_interp := fun _ => 1
  omega22_zeroecc_interp := none
  spline_fit := fun _ _ _ => .ok 2
  t_of_fref_fit := fun _ _ _ => .ok 5
  ecc_deriv_fit := fun _ _ => .ok (fun _ => 0)

/-- A state whose first pericenter (time `0`) lies at the start of the
reference window: pericenters at times `0, 8`, apocenters at `-1`
(index 0 holds time `-1`) and `10`.  Window: `tmin = 0`, `tmax = 8`. -/
noncomputable def sedge : EccState where
  t := [-1, 0, 1, 2, 3, 4, 5, 6, 7, 8, 9, 10]
  phase22 := [0, 2, 4, 6, 8, 10, 12, 14, 16, 18, 20, 22]
  pericenters_location := [1, 9]
  apocenters_location := [0, 11]
  omega22_pericenters_interp := fun _ => 4
  omega22_apocenters_interp := fun _ => 1
  omega22_zeroecc_interp := none
  spline_fit := fun _ _ _ => .ok 2
  t_of_fref_fit := fun _ _ _ => .ok 5
  ecc_deriv_fit := fun _ _ => .ok (fun _ => 0)

/-- Scalarization of a singleton time-array result, as performed by
lines 527-531 for 0-dimensional `tref_in`. -/
def scalarizeT : MeasureOut → MeasureOut
  | .tArray [r] [e] [ma] => .tScalar r e ma
  | o => o

/-- Scalarization of a singleton frequency-array result, as performed by
lines 527-534 for 0-dimensional `fref_in`. -/
def scalarizeF : MeasureOut → MeasureOut
  | .fArray [r] [e] [ma] => .fScalar r e ma
  | o => o

/-! ### Helper lemmas -/

theorem mapM_ok_getD {α β : Type} (f : α → Except EccErr β) (da : α) (db : β) :
    ∀ (l : List α) (bs : List β), l.mapM f = .ok bs →
      bs.length = l.length ∧ ∀ i, i < l.length → f (l.getD i da) = .ok (bs.getD i db) := by
  intro l
  induction l with
  | nil =>
    intro bs h
    simp only [List.mapM_nil, pure, Except.pure] at h
    cases h
    exact ⟨rfl, by intro i hi; cases hi⟩
  | cons a l ih =>
    intro bs h
    rw [List.mapM_cons] at h
    cases hfa : f a with
    | error e => rw [hfa] at h; simp [bind, Except.bind] at h
    | ok b =>
      rw [hfa] at h
      cases hrest : l.mapM f with
      | error e =>
        rw [hrest] at h; simp [bind, Except.bind] at h
      | ok rest =>
        rw [hrest] at h
        simp only [bind, Except.bind, pure, Except.pure] at h
        cases h
        obtain ⟨ihlen, ihspec⟩ := ih rest hrest
        refine ⟨by simp [ihlen], ?_⟩
        intro i hi
        cases i with
        | zero => simpa using hfa
        | succ j =>
          simp only [List.getD_cons_succ]
          exact ihspec j (Nat.lt_of_succ_lt_succ hi)

theorem mapM_ok_exists {α β : Type} (f : α → Except EccErr β) :
    ∀ (l : List α), (∀ a ∈ l, ∃ b, f a = .ok b) → ∃ bs, l.mapM f = .ok bs := by
  intro l
  induction l with
  | nil => intro _; exact ⟨[], by simp only [List.mapM_nil]; rfl⟩
  | cons a l ih =>
    intro h
    obtain ⟨b, hb⟩ := h a (by simp)
    obtain ⟨bs, hbs⟩ := ih (fun x hx => h x (by simp [hx]))
    refine ⟨b :: bs, ?_⟩
    rw [List.mapM_cons, hb, hbs]
    rfl

theorem headD_mem {α : Type} (l : List α) (d : α) (h : l ≠ []) : l.headD d ∈ l := by
  cases l with
  | nil => cases h rfl
  | cons a l => simp

theorem getLastD_mem {α : Type} (l : List α) (h : l ≠ []) (d : α) :
    l.getLastD d ∈ l := by
  rw [List.getLastD_eq_getLast?, List.getLast?_eq_getLast l h, Option.getD_some]
  exact List.getLast_mem h

theorem getLastD_congr {α : Type} (l : List α) (h : l ≠ []) (d1 d2 : α) :
    l.getLastD d1 = l.getLastD d2 := by
  rw [List.getLastD_eq_getLast?, List.getLastD_eq_getLast?,
    List.getLast?_eq_getLast l h, Option.getD_some, Option.getD_some]

theorem pairwise_headD_le {l : List ℚ} (hp : l.Pairwise (fun a b => a ≤ b))
    {τ : ℚ} (hτ : τ ∈ l) : l.headD 0 ≤ τ := by
  cases l with
  | nil => cases hτ
  | cons a l =>
    rcases List.mem_cons.mp hτ with h | h
    · simp [h]
    · exact (List.pairwise_cons.mp hp).1 τ h

theorem pairwise_le_getLast {τ : ℚ} :
    ∀ {l : List ℚ} (hne : l ≠ []), l.Pairwise (fun a b => a ≤ b) → τ ∈ l →
      τ ≤ l.getLast hne := by
  intro l
  induction l with
  | nil => intro hne; cases hne rfl
  | cons a l ih =>
    intro _ hp hτ
    obtain ⟨ha, hp'⟩ := List.pairwise_cons.mp hp
    cases l with
    | nil =>
      rcases List.mem_cons.mp hτ with h | h
      · subst h; simp [List.getLast]
      · cases h
    | cons b l' =>
      rw [List.getLast_cons (by simp)]
      rcases List.mem_cons.mp hτ with h | h
      · subst h
        exact ha _ (List.getLast_mem (by simp))
      · exact ih (by simp) hp' h

theorem pairwise_le_getLastD {τ : ℚ} {l : List ℚ}
    (hp : l.Pairwise (fun a b => a ≤ b)) (hτ : τ ∈ l) : τ ≤ l.getLastD 0 := by
  have hne : l ≠ [] := List.ne_nil_of_mem hτ
  rw [List.getLastD_eq_getLast?, List.getLast?_eq_getLast l hne, Option.getD_some]
  exact pairwise_le_getLast hne hp hτ

/-- When the pericenter orbit averages have a non-increasing step,
`compute_mean_motion_at_extrema` raises the pericenter monotonicity
error at every evaluation point. -/
theorem mean_motion_peri_error (s : EccState)
    (h : hasNonIncreasingStep (omega22_average_pericenters s) = true) (τ : ℚ) :
    compute_mean_motion_at_extrema s τ = .error .monotonicityPericenters := by
  unfold compute_mean_motion_at_extrema
  rw [h]
  simp

/-- Source `get_fref_bounds` with the `mean_motion` method propagates the
pericenter monotonicity error. -/
theorem get_fref_bounds_peri_error (s : EccState)
    (h : hasNonIncreasingStep (omega22_average_pericenters s) = true) :
    get_fref_bounds s .mean_motion = .error .monotonicityPericenters := by
  unfold get_fref_bounds avgMethodEval
  rw [mean_motion_peri_error s h]

/-- Source `measure_ecc` propagates a `get_fref_bounds` failure through its
shape-restoring wrapper. -/
theorem measureEcc_core_error (s : EccState) (m : AvgMethod) (d : Bool)
    (tin : Option TrefIn) (fin_ : Option FrefIn) (e : EccErr)
    (h : measureEccCore s m d (tin.map TrefIn.toList) (fin_.map FrefIn.toList)
      = .error e) :
    measureEcc s m d tin fin_ = .error e := by
  unfold measureEcc
  rw [h]

/-- A `get_fref_bounds` failure aborts `measure_ecc` regardless of the
reference input. -/
theorem measureEcc_bounds_error (s : EccState) (m : AvgMethod) (d : Bool)
    (tin : Option TrefIn) (fin_ : Option FrefIn) (e : EccErr)
    (h : get_fref_bounds s m = .error e) :
    measureEcc s m d tin fin_ = .error e := by
  apply measureEcc_core_error
  unfold measureEccCore
  rw [h]

/-- The orbit averages at pericenters of `sbad` are `2, 1, 9/2`, which
step down from `2` to `1`. -/
theorem sbad_peri_step :
    hasNonIncreasingStep (omega22_average_pericenters sbad) = true := by
  have hr : List.range (sbad.pericenters_location.length - 1) = [0, 1, 2] := rfl
  simp only [hasNonIncreasingStep, omega22_average_pericenters, hr]
  simp only [sbad, List.getD_cons_zero, List.getD_cons_succ, List.map_cons,
    List.map_nil, List.tail_cons, List.zipWith_cons_cons, List.zipWith_nil_right,
    List.any_cons, List.any_nil]
  have h1 : ((12:ℚ) - 8) / (8 - 4) - (8 - 0) / (4 - 0) ≤ 0 := by norm_num
  simp only [decide_eq_true_eq, Bool.or_eq_true, List.any_eq_true, List.mem_cons]
  norm_num

/-- Inversion of `afterResolve`: a successful run determines every
component of the result and records that every check passed. -/
theorem afterResolve_ok (s : EccState) (d : Bool) (tl : List ℚ)
    (fo? : Option (List ℝ))
    (r : List ℚ) (el : List ℝ) (ma : List ℝ) (fo : Option (List ℝ))
    (h : afterResolve s d tl fo? = .ok (r, el, ma, fo)) :
    r = tref_out_of s tl
    ∧ (tref_out_of s tl).isEmpty = false
    ∧ frefLenMismatch fo? (tref_out_of s tl) = false
    ∧ ¬((tref_out_of s tl).headD 0 < (t_pericenters s).headD 0
        ∨ (t_pericenters s).getLastD 0 ≤ (tref_out_of s tl).getLastD 0)
    ∧ compute_eccentricity s (tref_out_of s tl) = .ok el
    ∧ compute_mean_ano s (tref_out_of s tl) = .ok ma
    ∧ fo = fo? := by
  unfold afterResolve at h
  cases hflm : frefLenMismatch fo? (tref_out_of s tl) with
  | true => rw [hflm] at h; simp only [if_true] at h; exact Except.noConfusion h
  | false =>
    rw [hflm] at h
    simp only [Bool.false_eq_true, if_false] at h
    cases hemp : (tref_out_of s tl).isEmpty with
    | true =>
      rw [hemp] at h
      simp only [if_true] at h
      by_cases h1 : tmax s < tl.getLastD 0
      · rw [if_pos h1] at h; exact Except.noConfusion h
      · rw [if_neg h1] at h
        by_cases h2 : tl.headD 0 < tmin s
        · rw [if_pos h2] at h; exact Except.noConfusion h
        · rw [if_neg h2] at h; exact Except.noConfusion h
    | false =>
      rw [hemp] at h
      simp only [Bool.false_eq_true, if_false] at h
      by_cases hbnd : (tref_out_of s tl).headD 0 < (t_pericenters s).headD 0
          ∨ (t_pericenters s).getLastD 0 ≤ (tref_out_of s tl).getLastD 0
      · rw [if_pos hbnd] at h; exact Except.noConfusion h
      · rw [if_neg hbnd] at h
        cases hec : compute_eccentricity s (tref_out_of s tl) with
        | error e0 => rw [hec] at h; exact Except.noConfusion h
        | ok el' =>
          rw [hec] at h
          cases hma : compute_mean_ano s (tref_out_of s tl) with
          | error e0 => rw [hma] at h; exact Except.noConfusion h
          | ok ma' =>
            rw [hma] at h
            cases d with
            | false =>
              simp only [Bool.false_eq_true, if_false] at h
              have htup := Except.ok.inj h
              simp only [Prod.mk.injEq] at htup
              obtain ⟨hr, he, hm, hf⟩ := htup
              subst hr
              subst he
              subst hm
              subst hf
              exact ⟨rfl, rfl, rfl, hbnd, rfl, rfl, rfl⟩
            | true =>
              simp only [if_true] at h
              cases hdv : derivative_of_eccentricity s (t_for_checks s) with
              | error e0 => rw [hdv] at h; exact Except.noConfusion h
              | ok dv =>
                rw [hdv] at h
                have htup := Except.ok.inj h
                simp only [Prod.mk.injEq] at htup
                obtain ⟨hr, he, hm, hf⟩ := htup
                subst hr
                subst he
                subst hm
                subst hf
                exact ⟨rfl, rfl, rfl, hbnd, rfl, rfl, rfl⟩

/-- Inversion of the time-input pipeline: a successful
`measureEccCore` run with a time array determines every component of
the result and records that the checks passed. -/
theorem core_tref_ok (s : EccState) (m : AvgMethod) (d : Bool) (tl : List ℚ)
    (r : List ℚ) (el : List ℝ) (ma : List ℝ) (fo : Option (List ℝ))
    (h : measureEccCore s m d (some tl) none = .ok (r, el, ma, fo)) :
    r = tref_out_of s tl
    ∧ (tref_out_of s tl).isEmpty = false
    ∧ ¬((tref_out_of s tl).headD 0 < (t_pericenters s).headD 0
        ∨ (t_pericenters s).getLastD 0 ≤ (tref_out_of s tl).getLastD 0)
    ∧ compute_eccentricity s (tref_out_of s tl) = .ok el
    ∧ compute_mean_ano s (tref_out_of s tl) = .ok ma
    ∧ fo = none := by
  unfold measureEccCore at h
  cases hb : get_fref_bounds s m with
  | error e0 => rw [hb] at h; simp at h
  | ok b =>
    rw [hb] at h
    replace h : afterResolve s d tl none = .ok (r, el, ma, fo) := by
      simpa only [resolveInput] using h
    obtain ⟨h1, h2, _, h4, h5, h6, h7⟩ := afterResolve_ok s d tl none r el ma fo h
    exact ⟨h1, h2, h4, h5, h6, h7⟩

/-- A successful array-shaped `measure_ecc` call with time input comes
from a successful core run. -/
theorem measure_tArray_ok (s : EccState) (m : AvgMethod) (d : Bool)
    (tl : List ℚ) (r : List ℚ) (el ma : List ℝ)
    (h : measureEcc s m d (some (.array tl)) none = .ok (.tArray r el ma)) :
    ∃ fo, measureEccCore s m d (some tl) none = .ok (r, el, ma, fo) := by
  unfold measureEcc at h
  cases hc : measureEccCore s m d (Option.map TrefIn.toList (some (TrefIn.array tl)))
      (Option.map FrefIn.toList none) with
  | error e0 => rw [hc] at h; exact Except.noConfusion h
  | ok out =>
    rw [hc] at h
    obtain ⟨o1, o2, o3, o4⟩ := out
    have hmo := Except.ok.inj h
    simp only [MeasureOut.tArray.injEq] at hmo
    obtain ⟨h1, h2, h3⟩ := hmo
    subst h1
    subst h2
    subst h3
    exact ⟨o4, by simpa using hc⟩

/-! ### Claim theorems -/

/-- C1: for every time `t` in the reference window `[tmin, tmax)`,
`compute_eccentricity` returns exactly the value obtained by evaluating
the pericenter and apocenter frequency interpolants at `t`, forming
`ew = (sqrt(omega_p) - sqrt(omega_a)) / (sqrt(omega_p) + sqrt(omega_a))`
and converting via `psi = atan2(1 - ew^2, 2*ew)`,
`e = cos(psi/3) - sqrt(3) * sin(psi/3)`. -/
theorem compute_eccentricity_formula (s : EccState) (τ : ℚ)
    (h1 : tmin s ≤ τ) (h2 : τ < tmax s) :
    compute_eccentricity s [τ] = .ok
      [Real.cos (arctan2
          (1 - ((Real.sqrt (s.omega22_pericenters_interp τ : ℚ)
                  - Real.sqrt (s.omega22_apocenters_interp τ : ℚ))
                / (Real.sqrt (s.omega22_pericenters_interp τ : ℚ)
                  + Real.sqrt (s.omega22_apocenters_interp τ : ℚ))) ^ 2)
          (2 * ((Real.sqrt (s.omega22_pericenters_interp τ : ℚ)
                  - Real.sqrt (s.omega22_apocenters_interp τ : ℚ))
                / (Real.sqrt (s.omega22_pericenters_interp τ : ℚ)
                  + Real.sqrt (s.omega22_apocenters_interp τ : ℚ)))) / 3)
        - Real.sqrt 3 * Real.sin (arctan2
          (1 - ((Real.sqrt (s.omega22_pericenters_interp τ : ℚ)
                  - Real.sqrt (s.omega22_apocenters_interp τ : ℚ))
                / (Real.sqrt (s.omega22_pericenters_interp τ : ℚ)
                  + Real.sqrt (s.omega22_apocenters_interp τ : ℚ))) ^ 2)
          (2 * ((Real.sqrt (s.omega22_pericenters_interp τ : ℚ)
                  - Real.sqrt (s.omega22_apocenters_interp τ : ℚ))
                / (Real.sqrt (s.omega22_pericenters_interp τ : ℚ)
                  + Real.sqrt (s.omega22_apocenters_interp τ : ℚ)))) / 3)] := by
  have ha : ([τ].any (fun x => decide (tmax s ≤ x))) = false := by
    simp [not_le.mpr h2]
  have hb : ([τ].any (fun x => decide (x < tmin s))) = false := by
    simp [not_lt.mpr h1]
  unfold compute_eccentricity check_time_limits
  rw [ha, hb]
  simp only [Bool.false_eq_true, if_false, List.map_cons, List.map_nil]
  unfold compute_eccentricity_val et_from_ew22_0pn
  norm_num [pow_two]

/-- Witness for C1 at the concrete state `sgood` and time `5`. -/
theorem compute_eccentricity_formula_witness :
    tmin sgood ≤ 5 ∧ (5 : ℚ) < tmax sgood ∧
    compute_eccentricity sgood [5] = .ok
      [Real.cos (arctan2
          (1 - ((Real.sqrt (sgood.omega22_pericenters_interp 5 : ℚ)
                  - Real.sqrt (sgood.omega22_apocenters_interp 5 : ℚ))
                / (Real.sqrt (sgood.omega22_pericenters_interp 5 : ℚ)
                  + Real.sqrt (sgood.omega22_apocenters_interp 5 : ℚ))) ^ 2)
          (2 * ((Real.sqrt (sgood.omega22_pericenters_interp 5 : ℚ)
                  - Real.sqrt (sgood.omega22_apocenters_interp 5 : ℚ))
                / (Real.sqrt (sgood.omega22_pericenters_interp 5 : ℚ)
                  + Real.sqrt (sgood.omega22_apocenters_interp 5 : ℚ)))) / 3)
        - Real.sqrt 3 * Real.sin (arctan2
          (1 - ((Real.sqrt (sgood.omega22_pericenters_interp 5 : ℚ)
                  - Real.sqrt (sgood.omega22_apocenters_interp 5 : ℚ))
                / (Real.sqrt (sgood.omega22_pericenters_interp 5 : ℚ)
                  + Real.sqrt (sgood.omega22_apocenters_interp 5 : ℚ))) ^ 2)
          (2 * ((Real.sqrt (sgood.omega22_pericenters_interp 5 : ℚ)
                  - Real.sqrt (sgood.omega22_apocenters_interp 5 : ℚ))
                / (Real.sqrt (sgood.omega22_pericenters_interp 5 : ℚ)
                  + Real.sqrt (sgood.omega22_apocenters_interp 5 : ℚ)))) / 3)] :=
  ⟨by decide, by decide, compute_eccentricity_formula sgood 5 (by decide) (by decide)⟩

/-- C10: `compute_eccentricity`, `compute_mean_ano` and
`derivative_of_eccentricity` all run `check_time_limits` first: any
element at or past `tmax` (checked first), or any element below `tmin`,
makes all three raise the corresponding window error, so no interpolant
is evaluated outside `[tmin, tmax)` through these entry points. -/
theorem time_limit_guard (s : EccState) (ts : List ℚ) :
    ((∃ τ ∈ ts, tmax s ≤ τ) →
      compute_eccentricity s ts = .error .timesLaterThanTmax
      ∧ compute_mean_ano s ts = .error .timesLaterThanTmax
      ∧ derivative_of_eccentricity s ts = .error .timesLaterThanTmax)
    ∧ ((∀ τ ∈ ts, τ < tmax s) → (∃ τ ∈ ts, τ < tmin s) →
      compute_eccentricity s ts = .error .timesEarlierThanTmin
      ∧ compute_mean_ano s ts = .error .timesEarlierThanTmin
      ∧ derivative_of_eccentricity s ts = .error .timesEarlierThanTmin) := by
  constructor
  · intro h
    have hchk : check_time_limits s ts = .error .timesLaterThanTmax := by
      unfold check_time_limits
      have : ts.any (fun τ => decide (tmax s ≤ τ)) = true := by
        obtain ⟨τ, hm, hτ⟩ := h
        exact List.any_eq_true.mpr ⟨τ, hm, by simpa using hτ⟩
      rw [this]
      rfl
    refine ⟨?_, ?_, ?_⟩ <;>
      simp [compute_eccentricity, compute_mean_ano, derivative_of_eccentricity, hchk]
  · intro hall h
    have hchk : check_time_limits s ts = .error .timesEarlierThanTmin := by
      unfold check_time_limits
      have h1 : ts.any (fun τ => decide (tmax s ≤ τ)) = false := by
        simp only [List.any_eq_false]
        intro τ hm
        simpa using not_le.mpr (hall τ hm)
      have h2 : ts.any (fun τ => decide (τ < tmin s)) = true := by
        obtain ⟨τ, hm, hτ⟩ := h
        exact List.any_eq_true.mpr ⟨τ, hm, by simpa using hτ⟩
      rw [h1, h2]
      rfl
    refine ⟨?_, ?_, ?_⟩ <;>
      simp [compute_eccentricity, compute_mean_ano, derivative_of_eccentricity, hchk]

/-- Witness for C10: the time `100` lies past `tmax sgood = 10`. -/
theorem time_limit_guard_witness :
    compute_eccentricity sgood [100] = .error .timesLaterThanTmax
    ∧ compute_mean_ano sgood [100] = .error .timesLaterThanTmax
    ∧ derivative_of_eccentricity sgood [100] = .error .timesLaterThanTmax :=
  (time_limit_guard sgood [100]).1 ⟨100, by simp, by decide⟩

/-- C9: an unrecognized `dataDict` key only produces a warning — it
appears in the emitted warning list and the fatal outcome of
construction does not depend on the `dataDict` keys at all — whereas an
unrecognized configuration key (here in `extra_kwargs`, with the spline
kwargs recognized) aborts construction. -/
theorem init_key_validation (dataKeys splineKeys extraKeys : List String)
    (kd ke : String) :
    (kd ∈ dataKeys → kd ∉ get_recognized_dataDict_keys →
      kd ∈ (eccDefinition_init_keys dataKeys splineKeys extraKeys).1)
    ∧ (eccDefinition_init_keys dataKeys splineKeys extraKeys).2
        = (eccDefinition_init_keys [] splineKeys extraKeys).2
    ∧ ((∀ k ∈ splineKeys, k ∈ default_spline_keys) →
        ke ∈ extraKeys → ke ∉ default_extra_keys →
        (eccDefinition_init_keys dataKeys splineKeys extraKeys).2
          = .error .unrecognizedConfigKey) := by
  refine ⟨?_, rfl, ?_⟩
  · intro hmem hnot
    simp [eccDefinition_init_keys, dataDict_key_warnings, List.mem_filter, hmem, hnot]
  · intro hsp hmem hnot
    have h1 : check_kwargs_and_set_defaults splineKeys default_spline_keys
        = .ok default_spline_keys := by
      unfold check_kwargs_and_set_defaults
      have : splineKeys.any (fun k => decide (k ∉ default_spline_keys)) = false := by
        simp only [List.any_eq_false]
        intro k hk
        simpa using hsp k hk
      rw [this]
      rfl
    have h2 : check_kwargs_and_set_defaults extraKeys default_extra_keys
        = .error .unrecognizedConfigKey := by
      unfold check_kwargs_and_set_defaults
      have : extraKeys.any (fun k => decide (k ∉ default_extra_keys)) = true :=
        List.any_eq_true.mpr ⟨ke, hmem, by simpa using hnot⟩
      rw [this]
      rfl
    simp [eccDefinition_init_keys, h1, h2]

/-- Witness for C9: the extra key "param_dict" in `dataDict` is warned
about while construction's fatal outcome ignores it; the extra-kwargs
key "bogus" aborts. -/
theorem init_key_validation_witness :
    ("param_dict" ∈ (eccDefinition_init_keys ["t", "hlm", "param_dict"] ["k"]
        ["debug", "bogus"]).1)
    ∧ (eccDefinition_init_keys ["t", "hlm", "param_dict"] ["k"] ["debug", "bogus"]).2
        = (eccDefinition_init_keys [] ["k"] ["debug", "bogus"]).2
    ∧ (eccDefinition_init_keys ["t", "hlm", "param_dict"] ["k"] ["debug", "bogus"]).2
        = .error .unrecognizedConfigKey := by
  obtain ⟨a, b, c⟩ := init_key_validation ["t", "hlm", "param_dict"] ["k"]
    ["debug", "bogus"] "param_dict" "bogus"
  exact ⟨a (by decide) (by decide), b, c (by decide) (by decide) (by decide)⟩

/-- C5: for the `mean_motion` averaging method, the orbit-averaged
frequency sequences at pericenter intervals and at apocenter intervals
are each required to be strictly monotonically increasing independently;
a non-increasing step in either makes `compute_mean_motion_at_extrema`
raise one of the two monotonicity exceptions (fatal, not a warning), and
the same exception aborts `measure_ecc` configured with `mean_motion`
whatever the reference input. -/
theorem mean_motion_monotonicity_fatal (s : EccState) (τ : ℚ) (d : Bool)
    (tin : Option TrefIn) (fin_ : Option FrefIn)
    (h : hasNonIncreasingStep (omega22_average_pericenters s) = true
       ∨ hasNonIncreasingStep (omega22_average_apocenters s) = true) :
    (∃ e, compute_mean_motion_at_extrema s τ = .error e
        ∧ (e = .monotonicityPericenters ∨ e = .monotonicityApocenters))
    ∧ (∃ e, measureEcc s .mean_motion d tin fin_ = .error e
        ∧ (e = .monotonicityPericenters ∨ e = .monotonicityApocenters)) := by
  cases hp : hasNonIncreasingStep (omega22_average_pericenters s) with
  | true =>
    refine ⟨⟨.monotonicityPericenters, mean_motion_peri_error s hp τ, Or.inl rfl⟩,
      ⟨.monotonicityPericenters, ?_, Or.inl rfl⟩⟩
    exact measureEcc_bounds_error s _ d tin fin_ _ (get_fref_bounds_peri_error s hp)
  | false =>
    have ha : hasNonIncreasingStep (omega22_average_apocenters s) = true := by
      rcases h with h | h
      · rw [hp] at h; cases h
      · exact h
    have hcm : ∀ σ, compute_mean_motion_at_extrema s σ
        = .error .monotonicityApocenters := by
      intro σ
      unfold compute_mean_motion_at_extrema
      rw [hp, ha]
      simp
    have hb : get_fref_bounds s .mean_motion = .error .monotonicityApocenters := by
      unfold get_fref_bounds avgMethodEval
      rw [hcm]
    refine ⟨⟨.monotonicityApocenters, hcm τ, Or.inr rfl⟩,
      ⟨.monotonicityApocenters,
        measureEcc_bounds_error s _ d tin fin_ _ hb, Or.inr rfl⟩⟩

/-- Witness for C5 at `sbad`, whose pericenter orbit averages step down
from `2` to `1`. -/
theorem mean_motion_monotonicity_fatal_witness :
    (∃ e, compute_mean_motion_at_extrema sbad 2 = .error e
        ∧ (e = .monotonicityPericenters ∨ e = .monotonicityApocenters))
    ∧ (∃ e, measureEcc sbad .mean_motion false (some (.array [5])) none = .error e
        ∧ (e = .monotonicityPericenters ∨ e = .monotonicityApocenters)) :=
  mean_motion_monotonicity_fatal sbad 2 false (some (.array [5])) none
    (Or.inl sbad_peri_step)

/-- C6 (amended): when the reference-frequency bounds computation of
line 441 succeeds — it runs before the input check and can itself fail,
for instance through the `mean_motion` monotonicity exception —
supplying both `tref_in` and `fref_in`, or neither, raises the
"exactly one" error. -/
theorem exactly_one_input_required (s : EccState) (m : AvgMethod) (d : Bool)
    (x : TrefIn) (y : FrefIn) (hb : ∃ b, get_fref_bounds s m = .ok b) :
    measureEcc s m d (some x) (some y) = .error .exactlyOne
    ∧ measureEcc s m d none none = .error .exactlyOne := by
  obtain ⟨b, hb⟩ := hb
  constructor <;>
  · apply measureEcc_core_error
    unfold measureEccCore
    rw [hb]
    cases x <;> cases y <;> simp [resolveInput, Option.map]

/-- Witness for C6 at `sgood` with the `mean_of_extrema_interpolants`
method, whose bounds computation always succeeds. -/
theorem exactly_one_input_required_witness :
    measureEcc sgood .mean_of_extrema_interpolants true
      (some (.scalar 5)) (some (.scalar 1)) = .error .exactlyOne
    ∧ measureEcc sgood .mean_of_extrema_interpolants true none none
      = .error .exactlyOne :=
  exactly_one_input_required sgood .mean_of_extrema_interpolants true
    (.scalar 5) (.scalar 1) ⟨_, rfl⟩

/-- Counterexample to C6 as stated: on `sbad` with the (default)
`mean_motion` method, a call supplying both inputs — or neither — fails
with the monotonicity error, not the "exactly one" error, because
`get_fref_bounds` runs first. -/
theorem exactly_one_counterexample :
    measureEcc sbad .mean_motion false (some (.array [5])) (some (.array [1]))
      = .error .monotonicityPericenters
    ∧ measureEcc sbad .mean_motion false none none
      = .error .monotonicityPericenters
    ∧ EccErr.monotonicityPericenters ≠ EccErr.exactlyOne :=
  ⟨measureEcc_bounds_error sbad _ false _ _ _
      (get_fref_bounds_peri_error sbad sbad_peri_step),
   measureEcc_bounds_error sbad _ false none none _
      (get_fref_bounds_peri_error sbad sbad_peri_step),
   by decide⟩

/-- C7 (amended): with a reference-time input, the measured outputs of
`measure_ecc` are identical under any two averaging methods whenever
both calls succeed; success itself can depend on the method (see the
counterexample), because `get_fref_bounds` is evaluated with the
selected method on every call. -/
theorem averaging_method_independence (s : EccState) (d : Bool)
    (m1 m2 : AvgMethod) (tl : TrefIn) (o1 o2 : MeasureOut)
    (h1 : measureEcc s m1 d (some tl) none = .ok o1)
    (h2 : measureEcc s m2 d (some tl) none = .ok o2) :
    o1 = o2 := by
  have core : ∀ (m : AvgMethod) (c : List ℚ × List ℝ × List ℝ × Option (List ℝ)),
      measureEccCore s m d (some tl.toList) none = .ok c →
        afterResolve s d tl.toList none = .ok c := by
    intro m c hc
    unfold measureEccCore at hc
    cases hb : get_fref_bounds s m with
    | error e => rw [hb] at hc; simp at hc
    | ok b =>
      rw [hb] at hc
      simpa only [resolveInput] using hc
  unfold measureEcc at h1 h2
  cases hc1 : measureEccCore s m1 d (Option.map TrefIn.toList (some tl))
      (Option.map FrefIn.toList none) with
  | error e => rw [hc1] at h1; simp at h1
  | ok c1 =>
    cases hc2 : measureEccCore s m2 d (Option.map TrefIn.toList (some tl))
        (Option.map FrefIn.toList none) with
    | error e => rw [hc2] at h2; simp at h2
    | ok c2 =>
      rw [hc1] at h1
      rw [hc2] at h2
      have e1 := core m1 c1 (by simpa using hc1)
      have e2 := core m2 c2 (by simpa using hc2)
      rw [e1] at e2
      cases e2
      exact Except.ok.inj (h1.symm.trans h2)

/-- Witness for C7: on `sgood`, the `mean_of_extrema_interpolants` and
`omega22_zeroecc` methods both succeed with a time array and give the
same output. -/
theorem averaging_method_independence_witness :
    ∃ o1 o2,
      measureEcc sgood .mean_of_extrema_interpolants false
        (some (.array [5])) none = .ok o1
      ∧ measureEcc sgood .omega22_zeroecc false (some (.array [5])) none = .ok o2
      ∧ o1 = o2 :=
  ⟨_, _, rfl, rfl,
    averaging_method_independence sgood false .mean_of_extrema_interpolants
      .omega22_zeroecc (.array [5]) _ _ rfl rfl⟩

/-- Counterexample to C7 as stated: on `sbad`, the same time-array call
succeeds under `mean_of_extrema_interpolants` but fails under
`mean_motion` — the averaging-method selector is consulted (through
`get_fref_bounds`) even though the caller supplied reference times. -/
theorem averaging_method_counterexample :
    measureEcc sbad .mean_motion false (some (.array [5])) none
      = .error .monotonicityPericenters
    ∧ ∃ o, measureEcc sbad .mean_of_extrema_interpolants false
        (some (.array [5])) none = .ok o :=
  ⟨measureEcc_bounds_error sbad _ false _ none _
      (get_fref_bounds_peri_error sbad sbad_peri_step),
   ⟨_, rfl⟩⟩

/-- C3 (amended): the reference times returned by a successful
`measure_ecc` call with a time array are exactly the elements in
`[tmin, tmax)` (in particular a time equal to `tmax` is excluded); and,
provided the bounds computation of line 441 succeeds and
`tmin <= tmax`, a scalar reference time earlier than `tmin` fails with
the "earlier than tmin" error. -/
theorem tref_out_window (s : EccState) (m : AvgMethod) (d : Bool)
    (tl : List ℚ) (t0 : ℚ) :
    (∀ r el ma, measureEcc s m d (some (.array tl)) none = .ok (.tArray r el ma) →
      r = tl.filter (fun τ => decide (tmin s ≤ τ ∧ τ < tmax s)))
    ∧ ((∃ b, get_fref_bounds s m = .ok b) → tmin s ≤ tmax s → t0 < tmin s →
      measureEcc s m d (some (.scalar t0)) none = .error .earlierThanTmin) := by
  constructor
  · intro r el ma h
    obtain ⟨fo, hc⟩ := measure_tArray_ok s m d tl r el ma h
    exact (core_tref_ok s m d tl r el ma fo hc).1
  · rintro ⟨b, hb⟩ hminmax ht0
    apply measureEcc_core_error
    simp only [Option.map_some', Option.map_none', TrefIn.toList]
    unfold measureEccCore
    rw [hb]
    have hres : afterResolve s d [t0] none = .error .earlierThanTmin := by
      unfold afterResolve
      have hemp : tref_out_of s [t0] = [] := by
        simp [tref_out_of, List.filter, not_le.mpr ht0]
      rw [hemp]
      rw [show frefLenMismatch none ([] : List ℚ) = false from rfl]
      simp only [Bool.false_eq_true, if_false, List.isEmpty_nil, if_true]
      have hlt : ¬ tmax s < [t0].getLastD 0 := by
        simp only [List.getLastD_cons, List.getLastD_nil]
        exact not_lt.mpr (le_of_lt (lt_of_lt_of_le ht0 hminmax))
      rw [if_neg hlt]
      rw [if_pos (by simpa using ht0)]
    simpa only [resolveInput] using hres

/-- Witness for C3 at `sgood`: the scalar time `1` is earlier than
`tmin sgood = 2`. -/
theorem tref_out_window_witness :
    measureEcc sgood .mean_of_extrema_interpolants true (some (.scalar 1)) none
      = .error .earlierThanTmin :=
  (tref_out_window sgood .mean_of_extrema_interpolants true [] 1).2
    ⟨_, rfl⟩ (by decide) (by decide)

/-- Counterexample to C3 as stated: on `sbadwin`, whose first pericenter
and apocenter come in the order that makes `tmin = 5 > 2 = tmax`, a
scalar reference time `3` earlier than `tmin` fails with the "later than
tmax" error rather than the "too early" one. -/
theorem tref_window_counterexample :
    (3 : ℚ) < tmin sbadwin
    ∧ measureEcc sbadwin .mean_of_extrema_interpolants false
        (some (.scalar 3)) none = .error .laterThanTmax
    ∧ EccErr.laterThanTmax ≠ EccErr.earlierThanTmin :=
  ⟨by decide, rfl, by decide⟩

/-- Membership in the clipped reference array gives the window bounds. -/
theorem mem_tref_out {s : EccState} {tl : List ℚ} {τ : ℚ}
    (h : τ ∈ tref_out_of s tl) : tmin s ≤ τ ∧ τ < tmax s := by
  have := List.mem_filter.mp h
  simpa using this.2

theorem tp_headD_le_tmin (s : EccState) :
    (t_pericenters s).headD 0 ≤ tmin s := le_max_left _ _

theorem tmax_le_tp_getLastD (s : EccState) :
    tmax s ≤ (t_pericenters s).getLastD 0 := min_le_left _ _

/-- The guard of source line 510 can never hold for a nonempty clipped
reference array: its first element is `>= tmin >= t_pericenters[0]` and
its last is `< tmax <= t_pericenters[-1]`. -/
theorem tref_out_nonempty_not_bounding (s : EccState) (tl : List ℚ)
    (h : (tref_out_of s tl).isEmpty = false) :
    ¬((tref_out_of s tl).headD 0 < (t_pericenters s).headD 0
      ∨ (t_pericenters s).getLastD 0 ≤ (tref_out_of s tl).getLastD 0) := by
  have hne : tref_out_of s tl ≠ [] := by
    intro hnil
    rw [hnil] at h
    simp at h
  intro hcond
  rcases hcond with hc | hc
  · have hm := (mem_tref_out (headD_mem (tref_out_of s tl) 0 hne)).1
    exact absurd hc (not_lt.mpr (le_trans (tp_headD_le_tmin s) hm))
  · have hm := (mem_tref_out (getLastD_mem (tref_out_of s tl) hne 0)).2
    exact absurd hc (not_le.mpr (lt_of_lt_of_le hm (tmax_le_tp_getLastD s)))

/-- Source `check_time_limits` only raises the two window errors. -/
theorem check_time_limits_error (s : EccState) (ts : List ℚ) (e : EccErr)
    (h : check_time_limits s ts = .error e) :
    e = .timesLaterThanTmax ∨ e = .timesEarlierThanTmin := by
  unfold check_time_limits at h
  split at h
  · exact Or.inl (Except.error.inj h).symm
  · split at h
    · exact Or.inr (Except.error.inj h).symm
    · exact Except.noConfusion h

/-- Source `compute_eccentricity` only raises the two window errors. -/
theorem compute_eccentricity_error (s : EccState) (ts : List ℚ) (e : EccErr)
    (h : compute_eccentricity s ts = .error e) :
    e = .timesLaterThanTmax ∨ e = .timesEarlierThanTmin := by
  unfold compute_eccentricity at h
  cases hchk : check_time_limits s ts with
  | error e0 =>
    rw [hchk] at h
    cases Except.error.inj h
    exact check_time_limits_error s ts e hchk
  | ok u => rw [hchk] at h; exact Except.noConfusion h

/-- The inner `mean_ano` only raises the two IndexErrors. -/
theorem mean_ano_scalar_error (s : EccState) (τ : ℚ) (e : EccErr)
    (h : mean_ano_scalar s τ = .error e) :
    e = .noPericenterBefore ∨ e = .noNextPericenter := by
  unfold mean_ano_scalar at h
  split at h
  · exact Or.inl (Except.error.inj h).symm
  · split at h
    · exact Except.noConfusion h
    · exact Or.inr (Except.error.inj h).symm

/-- A failing `mapM` run exposes a failing element. -/
theorem mapM_error {α β : Type} (f : α → Except EccErr β) :
    ∀ (l : List α) (e : EccErr), l.mapM f = .error e → ∃ a ∈ l, f a = .error e := by
  intro l
  induction l with
  | nil => intro e h; rw [List.mapM_nil] at h; exact Except.noConfusion h
  | cons a l ih =>
    intro e h
    rw [List.mapM_cons] at h
    cases hfa : f a with
    | error e0 =>
      rw [hfa] at h
      simp only [bind, Except.bind] at h
      cases Except.error.inj h
      exact ⟨a, by simp, hfa⟩
    | ok b =>
      rw [hfa] at h
      simp only [bind, Except.bind] at h
      cases hrest : l.mapM f with
      | error e0 =>
        rw [hrest] at h
        simp only [bind, Except.bind] at h
        cases Except.error.inj h
        obtain ⟨x, hx, hfx⟩ := ih e hrest
        exact ⟨x, by simp [hx], hfx⟩
      | ok bs =>
        rw [hrest] at h
        simp only [bind, Except.bind, pure, Except.pure] at h
        exact Except.noConfusion h

/-- Source `compute_mean_ano` only raises window errors or the two
IndexErrors. -/
theorem compute_mean_ano_error (s : EccState) (ts : List ℚ) (e : EccErr)
    (h : compute_mean_ano s ts = .error e) :
    e = .timesLaterThanTmax ∨ e = .timesEarlierThanTmin
    ∨ e = .noPericenterBefore ∨ e = .noNextPericenter := by
  unfold compute_mean_ano at h
  cases hchk : check_time_limits s ts with
  | error e0 =>
    rw [hchk] at h
    cases Except.error.inj h
    rcases check_time_limits_error s ts e hchk with h1 | h1
    · exact Or.inl h1
    · exact Or.inr (Or.inl h1)
  | ok u =>
    rw [hchk] at h
    obtain ⟨τ, _, hτ⟩ := mapM_error (mean_ano_scalar s) ts e h
    rcases mean_ano_scalar_error s τ e hτ with h1 | h1
    · exact Or.inr (Or.inr (Or.inl h1))
    · exact Or.inr (Or.inr (Or.inr h1))

/-- A successful pointwise `mean_ano` requires at least one
pericenter. -/
theorem mean_ano_ok_tp_ne_nil (s : EccState) (τ : ℚ) (v : ℝ)
    (h : mean_ano_scalar s τ = .ok v) : t_pericenters s ≠ [] := by
  intro hnil
  unfold mean_ano_scalar at h
  rw [hnil] at h
  simp at h

/-- With the `mean_of_extrema_interpolants` method and `debug` off, the
time-input pipeline can never produce the "within two pericenters"
error: the guard of line 510 is unreachable. -/
theorem core_tref_no_within (s : EccState) (tl : List ℚ) :
    measureEccCore s .mean_of_extrema_interpolants false (some tl) none
      ≠ .error .withinTwoPericenters := by
  intro habs
  unfold measureEccCore at habs
  cases hb : get_fref_bounds s .mean_of_extrema_interpolants with
  | error e0 =>
    rw [hb] at habs
    unfold get_fref_bounds avgMethodEval at hb
    exact Except.noConfusion hb
  | ok b =>
    rw [hb] at habs
    replace habs : afterResolve s false tl none = .error .withinTwoPericenters := by
      simpa only [resolveInput] using habs
    unfold afterResolve at habs
    rw [show frefLenMismatch none (tref_out_of s tl) = false from rfl] at habs
    simp only [Bool.false_eq_true, if_false] at habs
    cases hemp : (tref_out_of s tl).isEmpty with
    | true =>
      rw [hemp] at habs
      simp only [if_true] at habs
      by_cases h1 : tmax s < tl.getLastD 0
      · rw [if_pos h1] at habs
        exact absurd (Except.error.inj habs) (by decide)
      · rw [if_neg h1] at habs
        by_cases h2 : tl.headD 0 < tmin s
        · rw [if_pos h2] at habs
          exact absurd (Except.error.inj habs) (by decide)
        · rw [if_neg h2] at habs
          exact absurd (Except.error.inj habs) (by decide)
    | false =>
      rw [hemp] at habs
      simp only [Bool.false_eq_true, if_false] at habs
      rw [if_neg (tref_out_nonempty_not_bounding s tl hemp)] at habs
      cases hec : compute_eccentricity s (tref_out_of s tl) with
      | error e0 =>
        rw [hec] at habs
        cases Except.error.inj habs
        rcases compute_eccentricity_error s _ _ hec with h1 | h1 <;>
          exact EccErr.noConfusion h1
      | ok el =>
        rw [hec] at habs
        cases hma : compute_mean_ano s (tref_out_of s tl) with
        | error e0 =>
          rw [hma] at habs
          cases Except.error.inj habs
          rcases compute_mean_ano_error s _ _ hma with h1 | h1 | h1 | h1 <;>
            exact EccErr.noConfusion h1
        | ok ma =>
          rw [hma] at habs
          simp only [Bool.false_eq_true, if_false] at habs
          exact Except.noConfusion habs

/-- C4 (amended): on a successful time-array call every resolved time
has a pericenter at or before it and a pericenter strictly after it
(the code's check uses these non-strict/strict senses, not the claim's);
moreover the guard `tref_out[0] < t_pericenters[0] or tref_out[-1] >=
t_pericenters[-1]` can never hold once the clipped array is nonempty, so
the "Reference time must be within two pericenters" error is unreachable
through the reference-time path (shown with the always-succeeding
bounds method and debug off). -/
theorem bounding_pericenter_check (s : EccState) (m : AvgMethod) (d : Bool)
    (tl : List ℚ) :
    (∀ r el ma, measureEcc s m d (some (.array tl)) none = .ok (.tArray r el ma) →
      ∀ τ ∈ r, (∃ p ∈ t_pericenters s, p ≤ τ) ∧ (∃ p ∈ t_pericenters s, τ < p))
    ∧ ((tref_out_of s tl).isEmpty = false →
      ¬((tref_out_of s tl).headD 0 < (t_pericenters s).headD 0
        ∨ (t_pericenters s).getLastD 0 ≤ (tref_out_of s tl).getLastD 0))
    ∧ (∀ (x : TrefIn),
      measureEcc s .mean_of_extrema_interpolants false (some x) none
        ≠ .error .withinTwoPericenters) := by
  refine ⟨?_, tref_out_nonempty_not_bounding s tl, ?_⟩
  · intro r el ma h τ hτ
    obtain ⟨fo, hc⟩ := measure_tArray_ok s m d tl r el ma h
    obtain ⟨hr, hemp, _, _, hma, _⟩ := core_tref_ok s m d tl r el ma fo hc
    subst hr
    have hw := mem_tref_out hτ
    have hlen : 0 < (tref_out_of s tl).length := by
      cases hl : tref_out_of s tl with
      | nil => rw [hl] at hτ; cases hτ
      | cons a l => simp
    have hmapm : (tref_out_of s tl).mapM (mean_ano_scalar s) = .ok ma := by
      unfold compute_mean_ano at hma
      cases hchk : check_time_limits s (tref_out_of s tl) with
      | error e0 => rw [hchk] at hma; exact Except.noConfusion hma
      | ok u => rw [hchk] at hma; exact hma
    have h0 := (mapM_ok_getD (mean_ano_scalar s) 0 0 _ ma hmapm).2 0 hlen
    have htp : t_pericenters s ≠ [] := mean_ano_ok_tp_ne_nil s _ _ h0
    exact ⟨⟨(t_pericenters s).headD 0, headD_mem _ 0 htp,
        le_trans (tp_headD_le_tmin s) hw.1⟩,
      ⟨(t_pericenters s).getLastD 0, getLastD_mem _ htp 0,
        lt_of_lt_of_le hw.2 (tmax_le_tp_getLastD s)⟩⟩
  · intro x h
    unfold measureEcc at h
    cases hc : measureEccCore s .mean_of_extrema_interpolants false
        (Option.map TrefIn.toList (some x)) (Option.map FrefIn.toList none) with
    | error e0 =>
      rw [hc] at h
      cases Except.error.inj h
      exact core_tref_no_within s x.toList (by simpa using hc)
    | ok out =>
      rw [hc] at h
      cases x <;> exact Except.noConfusion h

/-- Witness for C4 at `sgood` with the time array `[5, 7]`. -/
theorem bounding_pericenter_check_witness :
    (∀ r el ma,
      measureEcc sgood .mean_motion true (some (.array [5, 7])) none
        = .ok (.tArray r el ma) →
      ∀ τ ∈ r, (∃ p ∈ t_pericenters sgood, p ≤ τ)
        ∧ (∃ p ∈ t_pericenters sgood, τ < p))
    ∧ ((tref_out_of sgood [5, 7]).isEmpty = false →
      ¬((tref_out_of sgood [5, 7]).headD 0 < (t_pericenters sgood).headD 0
        ∨ (t_pericenters sgood).getLastD 0
          ≤ (tref_out_of sgood [5, 7]).getLastD 0))
    ∧ (∀ (x : TrefIn),
      measureEcc sgood .mean_of_extrema_interpolants false (some x) none
        ≠ .error .withinTwoPericenters) :=
  bounding_pericenter_check sgood .mean_motion true [5, 7]

/-- Counterexample to C4 as stated: on `sedge` the call with time array
`[0]` succeeds and resolves the time `0`, which is the first pericenter
time itself — it has no pericenter strictly before it, yet the call does
not fail. -/
theorem bounding_pericenter_counterexample :
    (∃ el ma, measureEcc sedge .mean_of_extrema_interpolants false
      (some (.array [0])) none = .ok (.tArray [0] el ma))
    ∧ (∀ p ∈ t_pericenters sedge, ¬ p < 0) :=
  ⟨⟨_, _, rfl⟩, by decide⟩

/-- Inversion of `get_fref_out`. -/
theorem get_fref_out_ok (fl : List ℝ) (fmin fmax : ℝ) (fo : List ℝ)
    (h : get_fref_out fl fmin fmax = .ok fo) :
    fo = fref_out_of fl fmin fmax
    ∧ (fref_out_of fl fmin fmax).isEmpty = false := by
  unfold get_fref_out at h
  cases hemp : (fref_out_of fl fmin fmax).isEmpty with
  | true =>
    rw [hemp] at h
    simp only [if_true] at h
    by_cases h1 : fl.headD 0 < fmin
    · rw [if_pos h1] at h; exact Except.noConfusion h
    · rw [if_neg h1] at h
      by_cases h2 : fmax < fl.getLastD 0
      · rw [if_pos h2] at h; exact Except.noConfusion h
      · rw [if_neg h2] at h; exact Except.noConfusion h
  | false =>
    rw [hemp] at h
    simp only [Bool.false_eq_true, if_false] at h
    exact ⟨(Except.ok.inj h).symm, rfl⟩

/-- Inversion of `compute_tref_in_and_fref_out`. -/
theorem ctif_ok (s : EccState) (m : AvgMethod) (b : FrefBounds) (fl : List ℝ)
    (p : List ℚ × List ℝ)
    (h : compute_tref_in_and_fref_out s m b fl = .ok p) :
    p.2 = fref_out_of fl b.fref_min b.fref_max
    ∧ (fref_out_of fl b.fref_min b.fref_max).isEmpty = false
    ∧ p.1.length = p.2.length := by
  unfold compute_tref_in_and_fref_out at h
  cases hgf : get_fref_out fl b.fref_min b.fref_max with
  | error e0 => rw [hgf] at h; exact Except.noConfusion h
  | ok fo' =>
    cases havg : (t_for_avg_of s b).mapM (avgMethodEval s m) with
    | error e0 =>
      simp only [hgf, havg] at h
      exact Except.noConfusion h
    | ok omega =>
      cases hfit : fo'.mapM (s.t_of_fref_fit
          (omega.map (fun w : ℚ => (w : ℝ) / (2 * Real.pi))) (t_for_avg_of s b)) with
      | error e0 =>
        simp only [hgf, havg, hfit] at h
        exact Except.noConfusion h
      | ok tl' =>
        have h' : (Except.ok (tl', fo') : Except EccErr (List ℚ × List ℝ))
            = .ok p := by
          simpa only [hgf, havg, hfit] using h
        have htup := (Except.ok.inj h').symm
        subst htup
        obtain ⟨hg1, hg2⟩ := get_fref_out_ok fl _ _ fo' hgf
        exact ⟨hg1, hg2, (mapM_ok_getD _ 0 0 fo' tl' hfit).1⟩

/-- Inversion of the frequency-input pipeline. -/
theorem core_fref_ok (s : EccState) (m : AvgMethod) (d : Bool) (fl : List ℝ)
    (r : List ℚ) (el ma : List ℝ) (fo : Option (List ℝ))
    (h : measureEccCore s m d none (some fl) = .ok (r, el, ma, fo)) :
    ∃ b tl', get_fref_bounds s m = .ok b
      ∧ r = tref_out_of s tl'
      ∧ (tref_out_of s tl').isEmpty = false
      ∧ compute_eccentricity s (tref_out_of s tl') = .ok el
      ∧ compute_mean_ano s (tref_out_of s tl') = .ok ma
      ∧ fo = some (fref_out_of fl b.fref_min b.fref_max)
      ∧ (fref_out_of fl b.fref_min b.fref_max).length = r.length := by
  unfold measureEccCore at h
  cases hb : get_fref_bounds s m with
  | error e0 => rw [hb] at h; simp at h
  | ok b =>
    rw [hb] at h
    cases hct : compute_tref_in_and_fref_out s m b fl with
    | error e0 =>
      simp only [resolveInput, hct] at h
      exact Except.noConfusion h
    | ok p =>
      have h' : afterResolve s d p.1 (some p.2) = .ok (r, el, ma, fo) := by
        simpa only [resolveInput, hct] using h
      obtain ⟨hr, hemp, hflm, hbnd, hec, hma, hfo⟩ :=
        afterResolve_ok s d p.1 (some p.2) r el ma fo h'
      obtain ⟨hg1, hg2, hlen⟩ := ctif_ok s m b fl p hct
      have hlen2 : p.2.length = (tref_out_of s p.1).length := by
        simpa [frefLenMismatch] using hflm
      refine ⟨b, p.1, rfl, hr, hemp, hec, hma, ?_, ?_⟩
      · rw [hfo, hg1]
      · rw [← hg1, hr]
        exact hlen2

/-- The window filter of a one-element time list is empty or that
list. -/
theorem tref_out_singleton (s : EccState) (t0 : ℚ) :
    tref_out_of s [t0] = [] ∨ tref_out_of s [t0] = [t0] := by
  unfold tref_out_of
  by_cases hp : tmin s ≤ t0 ∧ t0 < tmax s
  · right; simp [hp]
  · left; simp [hp]

/-- The frequency filter of a one-element list is empty or that list. -/
theorem fref_out_singleton (f0 fmin fmax : ℝ) :
    fref_out_of [f0] fmin fmax = [] ∨ fref_out_of [f0] fmin fmax = [f0] := by
  unfold fref_out_of
  by_cases hp : fmin ≤ f0 ∧ f0 < fmax
  · right; simp [hp]
  · left; simp [hp]

/-- Successful `compute_eccentricity` maps the eccentricity formula. -/
theorem compute_eccentricity_ok (s : EccState) (ts : List ℚ) (el : List ℝ)
    (h : compute_eccentricity s ts = .ok el) :
    el = ts.map (compute_eccentricity_val s) := by
  unfold compute_eccentricity at h
  cases hchk : check_time_limits s ts with
  | error e0 => rw [hchk] at h; exact Except.noConfusion h
  | ok u => rw [hchk] at h; exact (Except.ok.inj h).symm

/-- Successful `compute_mean_ano` is a successful `mapM` of the
pointwise `mean_ano`. -/
theorem compute_mean_ano_ok (s : EccState) (ts : List ℚ) (ma : List ℝ)
    (h : compute_mean_ano s ts = .ok ma) :
    ts.mapM (mean_ano_scalar s) = .ok ma := by
  unfold compute_mean_ano at h
  cases hchk : check_time_limits s ts with
  | error e0 => rw [hchk] at h; exact Except.noConfusion h
  | ok u => rw [hchk] at h; exact h

/-- A successful `mapM` over a one-element list returns one element. -/
theorem mapM_singleton {α β : Type} (f : α → Except EccErr β) (a : α)
    (bs : List β) (h : [a].mapM f = .ok bs) : ∃ b, bs = [b] ∧ f a = .ok b := by
  cases bs with
  | nil =>
    rw [List.mapM_cons] at h
    cases hfa : f a with
    | error e0 => rw [hfa] at h; simp [bind, Except.bind] at h
    | ok b =>
      rw [hfa] at h
      simp only [bind, Except.bind, List.mapM_nil, pure, Except.pure] at h
      exact absurd (Except.ok.inj h) (by simp)
  | cons b bs' =>
    obtain ⟨hlen, hspec⟩ := mapM_ok_getD f a b [a] (b :: bs') h
    cases bs' with
    | nil => exact ⟨b, rfl, by simpa using hspec 0 (by simp)⟩
    | cons c cs => simp at hlen

/-- C8: a scalar reference time gives exactly the single elements of the
arrays that the one-element-array call returns — the equation forces the
array result to be a singleton — and errors coincide; the same holds
for a scalar reference frequency. -/
theorem scalar_array_symmetry (s : EccState) (m : AvgMethod) (d : Bool)
    (t0 : ℚ) (f0 : ℝ) :
    measureEcc s m d (some (.scalar t0)) none
      = Except.map scalarizeT (measureEcc s m d (some (.array [t0])) none)
    ∧ measureEcc s m d none (some (.scalar f0))
      = Except.map scalarizeF (measureEcc s m d none (some (.array [f0]))) := by
  constructor
  · unfold measureEcc
    simp only [Option.map_some', Option.map_none', TrefIn.toList]
    cases hc : measureEccCore s m d (some [t0]) none with
    | error e0 => simp [Except.map]
    | ok out =>
      obtain ⟨r, el, ma, fo⟩ := out
      obtain ⟨hr, hemp, hbnd, hec, hma, hfo⟩ := core_tref_ok s m d [t0] r el ma fo hc
      have htref : tref_out_of s [t0] = [t0] := by
        rcases tref_out_singleton s t0 with h1 | h1
        · rw [h1] at hemp; simp at hemp
        · exact h1
      have hrs : r = [t0] := by rw [hr, htref]
      have hel : el = [compute_eccentricity_val s t0] := by
        have := compute_eccentricity_ok s _ el hec
        rw [htref] at this
        simpa using this
      obtain ⟨w, hw, _⟩ := mapM_singleton (mean_ano_scalar s) t0 ma
        (by rw [← htref]; exact compute_mean_ano_ok s _ ma hma)
      subst hrs
      subst hel
      subst hw
      subst hfo
      simp [Except.map, scalarizeT]
  · unfold measureEcc
    simp only [Option.map_some', Option.map_none', FrefIn.toList]
    cases hc : measureEccCore s m d none (some [f0]) with
    | error e0 => simp [Except.map]
    | ok out =>
      obtain ⟨r, el, ma, fo⟩ := out
      obtain ⟨b, tl', hb, hr, hemp, hec, hma, hfo, hlen⟩ :=
        core_fref_ok s m d [f0] r el ma fo hc
      have hfol : fref_out_of [f0] b.fref_min b.fref_max = [f0] := by
        rcases fref_out_singleton f0 b.fref_min b.fref_max with h1 | h1
        · rw [h1] at hlen
          simp only [List.length_nil] at hlen
          have : r = [] := List.length_eq_zero.mp hlen.symm
          rw [this] at hr
          rw [← hr] at hemp
          simp at hemp
        · exact h1
      have hrlen : r.length = 1 := by rw [← hlen, hfol]; rfl
      obtain ⟨τ, hτ⟩ := List.length_eq_one.mp hrlen
      have hel : el = [compute_eccentricity_val s τ] := by
        have := compute_eccentricity_ok s _ el hec
        rw [← hr, hτ] at this
        simpa using this
      obtain ⟨w, hw, _⟩ := mapM_singleton (mean_ano_scalar s) τ ma
        (by rw [← hτ, hr]; exact compute_mean_ano_ok s _ ma hma)
      subst hτ
      subst hel
      subst hw
      rw [hfo, hfol]
      simp [Except.map, scalarizeF]

/-- Strictly sorted access through `getD`. -/
theorem pairwise_getD_lt (tp : List ℚ) (hpw : tp.Pairwise (fun a b => a < b))
    {i j : ℕ} (hij : i < j) (hj : j < tp.length) :
    tp.getD i 0 < tp.getD j 0 := by
  have hi : i < tp.length := lt_trans hij hj
  rw [List.getD_eq_getElem tp 0 hi, List.getD_eq_getElem tp 0 hj]
  exact List.pairwise_iff_getElem.mp hpw i j hi hj hij

theorem pairwise_getD_le (tp : List ℚ) (hpw : tp.Pairwise (fun a b => a < b))
    {i j : ℕ} (hij : i ≤ j) (hj : j < tp.length) :
    tp.getD i 0 ≤ tp.getD j 0 := by
  rcases lt_or_eq_of_le hij with h | h
  · exact le_of_lt (pairwise_getD_lt tp hpw h hj)
  · rw [h]

/-- Between one pericenter at or before `τ` and one strictly after it,
a strictly sorted pericenter list has an adjacent bracketing pair. -/
theorem exists_bracket (tp : List ℚ) (hpw : tp.Pairwise (fun a b => a < b))
    (τ : ℚ) (hle : ∃ p ∈ tp, p ≤ τ) (hgt : ∃ p ∈ tp, τ < p) :
    ∃ j, j + 1 < tp.length ∧ tp.getD j 0 ≤ τ ∧ τ < tp.getD (j + 1) 0 := by
  have hex : ∃ k, k < tp.length ∧ τ < tp.getD k 0 := by
    obtain ⟨p, hp, hpτ⟩ := hgt
    obtain ⟨k, hk, hkp⟩ := List.mem_iff_getElem.mp hp
    exact ⟨k, hk, by rw [List.getD_eq_getElem tp 0 hk, hkp]; exact hpτ⟩
  classical
  obtain ⟨hk0len, hk0gt⟩ := Nat.find_spec hex
  have hk0pos : 0 < Nat.find hex := by
    rcases Nat.eq_zero_or_pos (Nat.find hex) with h | h
    swap
    · exact h
    · exfalso
      obtain ⟨p, hp, hpτ⟩ := hle
      obtain ⟨i, hi, hip⟩ := List.mem_iff_getElem.mp hp
      have h0i : tp.getD 0 0 ≤ tp.getD i 0 := pairwise_getD_le tp hpw (Nat.zero_le i) hi
      have h0τ : tp.getD 0 0 ≤ τ := by
        refine le_trans h0i ?_
        rw [List.getD_eq_getElem tp 0 hi, hip]
        exact hpτ
      rw [h] at hk0gt
      exact absurd hk0gt (not_lt.mpr h0τ)
  refine ⟨Nat.find hex - 1, ?_, ?_, ?_⟩
  · rw [Nat.sub_add_cancel hk0pos]
    exact hk0len
  · have hmin := Nat.find_min hex (Nat.sub_lt hk0pos Nat.one_pos)
    have hlt : Nat.find hex - 1 < tp.length :=
      lt_trans (Nat.sub_lt hk0pos Nat.one_pos) hk0len
    by_contra hc
    exact hmin ⟨hlt, not_le.mp hc⟩
  · rw [Nat.sub_add_cancel hk0pos]
    exact hk0gt

/-- The `np.where`-style filter over a strictly sorted list selects
exactly the indices up to the bracketing one. -/
theorem filter_range_eq (tp : List ℚ) (τ : ℚ)
    (hpw : tp.Pairwise (fun a b => a < b)) (j : ℕ)
    (hj : j + 1 < tp.length) (h1 : tp.getD j 0 ≤ τ) (h2 : τ < tp.getD (j + 1) 0) :
    (List.range tp.length).filter (fun i => decide (tp.getD i 0 ≤ τ))
      = List.range (j + 1) := by
  have hjlen : j < tp.length := lt_trans (Nat.lt_succ_self j) hj
  have hptrue : ∀ i, i ≤ j → decide (tp.getD i 0 ≤ τ) = true := by
    intro i hi
    simpa using le_trans (pairwise_getD_le tp hpw hi hjlen) h1
  have hpfalse : ∀ i, j < i → i < tp.length →
      decide (tp.getD i 0 ≤ τ) = false := by
    intro i hji hil
    simpa using not_le.mpr
      (lt_of_lt_of_le h2 (pairwise_getD_le tp hpw (Nat.succ_le_of_lt hji) hil))
  have main : ∀ n, j + 1 ≤ n → n ≤ tp.length →
      (List.range n).filter (fun i => decide (tp.getD i 0 ≤ τ))
        = List.range (j + 1) := by
    intro n
    induction n with
    | zero => intro h0 _; cases Nat.not_succ_le_zero j h0
    | succ n ihn =>
      intro hn hnlen
      rcases Nat.lt_or_ge (j + 1) (n + 1) with hlt | hge
      · have hjn : j + 1 ≤ n := Nat.lt_succ_iff.mp hlt
        rw [List.range_succ, List.filter_append]
        have hsing : (List.filter (fun i => decide (tp.getD i 0 ≤ τ)) [n]) = [] := by
          have hf := hpfalse n (Nat.lt_of_succ_le hjn) (Nat.lt_of_succ_le hnlen)
          rw [List.filter_cons, hf]
          simp
        rw [hsing, List.append_nil]
        exact ihn hjn (Nat.le_of_succ_le hnlen)
      · have heq : n + 1 = j + 1 := le_antisymm hge hn
        rw [heq]
        apply List.filter_eq_self.mpr
        intro a ha
        exact hptrue a (Nat.lt_succ_iff.mp (List.mem_range.mp ha))
  exact main tp.length (le_of_lt hj) (le_refl _)

/-- Pointwise value of `mean_ano` on a bracketed time. -/
theorem mean_ano_scalar_eq (s : EccState) (τ : ℚ)
    (hpw : (t_pericenters s).Pairwise (fun a b => a < b)) (j : ℕ)
    (hj : j + 1 < (t_pericenters s).length)
    (h1 : (t_pericenters s).getD j 0 ≤ τ)
    (h2 : τ < (t_pericenters s).getD (j + 1) 0) :
    mean_ano_scalar s τ = .ok (2 * Real.pi *
      (((τ - (t_pericenters s).getD j 0)
        / ((t_pericenters s).getD (j + 1) 0 - (t_pericenters s).getD j 0) : ℚ) : ℝ)) := by
  unfold mean_ano_scalar
  rw [filter_range_eq (t_pericenters s) τ hpw j hj h1 h2]
  rw [List.range_succ, List.getLast?_concat]
  exact if_pos hj

/-- C2: for times in the reference window with a pericenter at or before
them and a pericenter after them (pericenter times strictly increasing,
as produced by the strictly increasing extrema indices),
`compute_mean_ano` succeeds elementwise and each returned value is
`2*pi*(t - t_last_pericenter)/(t_next_pericenter - t_last_pericenter)`
for the bracketing pericenter pair, and lies in `[0, 2*pi)`.  A scalar
input is the singleton-list case. -/
theorem compute_mean_ano_spec (s : EccState)
    (hs : List.Chain' (fun a b => a < b) (t_pericenters s)) (ts : List ℚ)
    (hwin : ∀ τ ∈ ts, tmin s ≤ τ ∧ τ < tmax s)
    (hle : ∀ τ ∈ ts, ∃ p ∈ t_pericenters s, p ≤ τ)
    (hgt : ∀ τ ∈ ts, ∃ p ∈ t_pericenters s, τ < p) :
    ∃ ms, compute_mean_ano s ts = .ok ms ∧ ms.length = ts.length ∧
      ∀ i, i < ts.length → ∃ j, j + 1 < (t_pericenters s).length
        ∧ (t_pericenters s).getD j 0 ≤ ts.getD i 0
        ∧ ts.getD i 0 < (t_pericenters s).getD (j + 1) 0
        ∧ ms.getD i 0 = 2 * Real.pi
            * (((ts.getD i 0 - (t_pericenters s).getD j 0)
              / ((t_pericenters s).getD (j + 1) 0 - (t_pericenters s).getD j 0) : ℚ) : ℝ)
        ∧ 0 ≤ ms.getD i 0 ∧ ms.getD i 0 < 2 * Real.pi := by
  have hpw : (t_pericenters s).Pairwise (fun a b => a < b) :=
    List.chain'_iff_pairwise.mp hs
  have hchk : check_time_limits s ts = .ok () := by
    unfold check_time_limits
    have h1 : ts.any (fun τ => decide (tmax s ≤ τ)) = false := by
      simp only [List.any_eq_false]
      intro τ hm
      simpa using not_le.mpr (hwin τ hm).2
    have h2 : ts.any (fun τ => decide (τ < tmin s)) = false := by
      simp only [List.any_eq_false]
      intro τ hm
      simpa using not_lt.mpr (hwin τ hm).1
    rw [h1, h2]
    simp
  have hok : ∀ τ ∈ ts, ∃ v, mean_ano_scalar s τ = .ok v := by
    intro τ hm
    obtain ⟨j, hj, h1, h2⟩ :=
      exists_bracket (t_pericenters s) hpw τ (hle τ hm) (hgt τ hm)
    exact ⟨_, mean_ano_scalar_eq s τ hpw j hj h1 h2⟩
  obtain ⟨ms, hms⟩ := mapM_ok_exists (mean_ano_scalar s) ts hok
  have hcomp : compute_mean_ano s ts = .ok ms := by
    unfold compute_mean_ano
    rw [hchk]
    exact hms
  obtain ⟨hlen, hspec⟩ := mapM_ok_getD (mean_ano_scalar s) 0 0 ts ms hms
  refine ⟨ms, hcomp, hlen, ?_⟩
  intro i hi
  have hmem : ts.getD i 0 ∈ ts := by
    rw [List.getD_eq_getElem ts 0 hi]
    exact List.getElem_mem hi
  obtain ⟨j, hj, h1, h2⟩ :=
    exists_bracket (t_pericenters s) hpw (ts.getD i 0) (hle _ hmem) (hgt _ hmem)
  have hv := mean_ano_scalar_eq s (ts.getD i 0) hpw j hj h1 h2
  have hiv := hspec i hi
  rw [hv] at hiv
  have hval := (Except.ok.inj hiv).symm
  have hdpos : (0 : ℚ) < (t_pericenters s).getD (j + 1) 0 - (t_pericenters s).getD j 0 :=
    sub_pos.mpr (pairwise_getD_lt (t_pericenters s) hpw (Nat.lt_succ_self j) hj)
  have hfrac0 : (0 : ℚ) ≤ (ts.getD i 0 - (t_pericenters s).getD j 0)
      / ((t_pericenters s).getD (j + 1) 0 - (t_pericenters s).getD j 0) :=
    div_nonneg (sub_nonneg.mpr h1) (le_of_lt hdpos)
  have hfrac1 : (ts.getD i 0 - (t_pericenters s).getD j 0)
      / ((t_pericenters s).getD (j + 1) 0 - (t_pericenters s).getD j 0) < 1 := by
    rw [div_lt_one hdpos]
    have := sub_lt_sub_right h2 ((t_pericenters s).getD j 0)
    linarith
  have hpi : (0 : ℝ) < 2 * Real.pi := by positivity
  refine ⟨j, hj, h1, h2, hval, ?_, ?_⟩
  · rw [hval]
    apply mul_nonneg (le_of_lt hpi)
    exact_mod_cast hfrac0
  · rw [hval]
    calc 2 * Real.pi * (((ts.getD i 0 - (t_pericenters s).getD j 0)
          / ((t_pericenters s).getD (j + 1) 0 - (t_pericenters s).getD j 0) : ℚ) : ℝ)
        < 2 * Real.pi * 1 := by
          apply mul_lt_mul_of_pos_left _ hpi
          exact_mod_cast hfrac1
      _ = 2 * Real.pi := mul_one _

/-- Witness for C2 at `sgood` with times `[5, 9]`: the bracketing
pericenter pairs are `(4, 8)` and `(8, 12)`. -/
theorem compute_mean_ano_spec_witness :
    ∃ ms, compute_mean_ano sgood [5, 9] = .ok ms ∧ ms.length = ([5, 9] : List ℚ).length ∧
      ∀ i, i < ([5, 9] : List ℚ).length → ∃ j, j + 1 < (t_pericenters sgood).length
        ∧ (t_pericenters sgood).getD j 0 ≤ ([5, 9] : List ℚ).getD i 0
        ∧ ([5, 9] : List ℚ).getD i 0 < (t_pericenters sgood).getD (j + 1) 0
        ∧ ms.getD i 0 = 2 * Real.pi
            * (((([5, 9] : List ℚ).getD i 0 - (t_pericenters sgood).getD j 0)
              / ((t_pericenters sgood).getD (j + 1) 0
                - (t_pericenters sgood).getD j 0) : ℚ) : ℝ)
        ∧ 0 ≤ ms.getD i 0 ∧ ms.getD i 0 < 2 * Real.pi :=
  compute_mean_ano_spec sgood
    (by simp [t_pericenters, sgood, List.chain'_cons]; norm_num)
    [5, 9] (by decide) (by decide) (by decide)

end GwEcc
